import Mathlib

/-!
# reverse-proxy-go: a shallow embedding of the request-serving pipeline

The Go packages `stats`, `auth`, `config` and `pom` are embedded as Lean
namespaces of the same names.  Go maps are total lookup functions into
`Option`, handlers are state-passing functions, a run-time panic is an
explicit outcome, and the wall clock is an explicit argument (`now`, Unix
seconds).  Logging has no effect on any value studied here and is left out.
-/

set_option autoImplicit false

/-! ## Go maps -/

/-- A Go `map[string]V`: a lookup that answers `none` for an absent key. -/
def GoMap (V : Type) : Type := String → Option V

namespace GoMap

variable {V : Type}

/-- The result of `make(map[string]V)`. -/
def empty : GoMap V := fun _ => none

/-- The comma-ok lookup `v, ok := m[k]`. -/
def get (m : GoMap V) (k : String) : Option V := m k

/-- The assignment `m[k] = v`. -/
def set (m : GoMap V) (k : String) (v : V) : GoMap V :=
  fun k' => if k' = k then some v else m k'

end GoMap

/-! ## Package `strings` -/

namespace strings

/-- The pieces of `cs` between occurrences of the separator `sep`. -/
def splitChars (sep : Char) : List Char → List (List Char)
  | [] => [[]]
  | c :: cs =>
    if c = sep then [] :: splitChars sep cs
    else
      match splitChars sep cs with
      | [] => [[c]]
      | p :: ps => (c :: p) :: ps

/-- The call `strings.Split(s, " ")`: `s` cut at every single space
character; `n` spaces give `n + 1` pieces, the empty string gives one empty
piece. -/
def SplitSpace (s : String) : List String :=
  (splitChars ' ' s.data).map String.mk

/-- The function `strings.ToLower` on the letters `A`..`Z`.  Go also maps
non-ASCII upper-case runes; none of those maps to an ASCII letter of the
word `bearer`, the only string the result is compared with. -/
def ToLower (s : String) : String :=
  String.mk (s.data.map Char.toLower)

/-- The white-space runes of `unicode.IsSpace` in the Latin-1 range. -/
def isSpace (c : Char) : Bool :=
  c = ' ' || c = '\t' || c = '\n' || c = '\x0b' || c = '\x0c' || c = '\r'
    || c = '\u0085' || c = '\u00a0'

/-- The worker of `Fields`: `cur` is the field being read, reversed. -/
def fieldsChars : List Char → List Char → List (List Char)
  | [], [] => []
  | [], cur => [cur.reverse]
  | c :: cs, [] => if isSpace c then fieldsChars cs [] else fieldsChars cs [c]
  | c :: cs, d :: ds =>
    if isSpace c then (d :: ds).reverse :: fieldsChars cs []
    else fieldsChars cs (c :: d :: ds)

/-- The function `strings.Fields`: the maximal runs of non-white-space
characters of `s`. -/
def Fields (s : String) : List String :=
  (fieldsChars s.data []).map String.mk

end strings

/-! ## Package `net/http`: headers and the response writer -/

namespace http

/-- The bytes `textproto` accepts in a header field name (RFC 7230 token
characters). -/
def validHeaderFieldByte (c : Char) : Bool :=
  c.isAlphanum || "!#$%&*+-.^_|~".data.contains c || c = '\x27' || c = '\x60'

/-- The worker of `canonicalMIMEHeaderKey`: `upper` says whether the next
letter starts a word. -/
def canonicalChars : Bool → List Char → List Char
  | _, [] => []
  | upper, c :: cs =>
    (if upper then c.toUpper else c.toLower) :: canonicalChars (c = '-') cs

/-- The function `textproto.CanonicalMIMEHeaderKey`: a key with a byte that
is not a token character is returned as it is; otherwise the first letter
and every letter after a hyphen are upper-cased and the others lower-cased. -/
def CanonicalMIMEHeaderKey (k : String) : String :=
  if k.data.all validHeaderFieldByte then String.mk (canonicalChars true k.data)
  else k

/-- The type `http.Header`, a `map[string][]string`. -/
abbrev Header : Type := GoMap (List String)

/-- The method `Header.Get`: the first value under the canonical form of
the key, or the empty string. -/
def Header.Get (h : Header) (key : String) : String :=
  match GoMap.get h (CanonicalMIMEHeaderKey key) with
  | some (v :: _) => v
  | _ => ""

/-- The method `Header.Set`: the canonical key now holds the single value. -/
def Header.Set (h : Header) (key value : String) : Header :=
  GoMap.set h (CanonicalMIMEHeaderKey key) [value]

/-- The bytes of a character in UTF-8, as numbers below 256. -/
def utf8EncodeChar (c : Char) : List Nat :=
  let n := c.toNat
  if n < 128 then [n]
  else if n < 2048 then [192 + n / 64, 128 + n % 64]
  else if n < 65536 then [224 + n / 4096, 128 + (n / 64) % 64, 128 + n % 64]
  else [240 + n / 262144, 128 + (n / 4096) % 64, 128 + (n / 64) % 64, 128 + n % 64]

/-- The conversion `[]byte(s)`. -/
def bytesOf (s : String) : List Nat := (s.data.map utf8EncodeChar).flatten

/-- The bytes of an ASCII literal. -/
def ascii (s : String) : List Nat := s.data.map Char.toNat

/-- The sniffing predicate `isWS`: tab, line feed, form feed, carriage
return, space. -/
def isWS (b : Nat) : Bool := b = 9 || b = 10 || b = 12 || b = 13 || b = 32

/-- The sniffing predicate `isTT`: a tag-terminating byte, space or `>`. -/
def isTT (b : Nat) : Bool := b = 32 || b = 62

/-- The signature kinds of `net/http/sniff.go`. -/
inductive sniffSig where
  | htmlSig (h : List Nat)
  | maskedSig (mask pat : List Nat) (skipWS : Bool) (ct : String)
  | exactSig (sig : List Nat) (ct : String)
  | mp4Sig
  | textSig

/-- The content type a signature answers when it matches. -/
def sniffSig.ct : sniffSig → String
  | sniffSig.htmlSig _ => "text/html; charset=utf-8"
  | sniffSig.maskedSig _ _ _ ct => ct
  | sniffSig.exactSig _ ct => ct
  | sniffSig.mp4Sig => "video/mp4"
  | sniffSig.textSig => "text/plain; charset=utf-8"

/-- The method `match` of the signature kinds: the content type, or the
empty string when the data does not match. -/
def sniffSig.matchData (sig : sniffSig) (data : List Nat) (firstNonWS : Nat) : String :=
  match sig with
  | sniffSig.htmlSig h =>
    let data1 := data.drop firstNonWS
    if data1.length < h.length + 1 then ""
    else if (List.zip h data1).all
        (fun p => p.1 == (if 65 ≤ p.1 ∧ p.1 ≤ 90 then p.2 &&& 223 else p.2)) then
      if isTT (data1.getD h.length 0) then "text/html; charset=utf-8" else ""
    else ""
  | sniffSig.maskedSig mask pat skipWS ct =>
    let data1 := if skipWS then data.drop firstNonWS else data
    if pat.length ≠ mask.length then ""
    else if data1.length < pat.length then ""
    else if (List.zip pat (List.zip data1 mask)).all (fun p => (p.2.1 &&& p.2.2) == p.1) then ct
    else ""
  | sniffSig.exactSig sig ct =>
    if data.take sig.length = sig ∧ sig.length ≤ data.length then ct else ""
  | sniffSig.mp4Sig =>
    if data.length < 12 then ""
    else
      let boxSize := ((data.getD 0 0 * 256 + data.getD 1 0) * 256 + data.getD 2 0) * 256
        + data.getD 3 0
      if data.length < boxSize ∨ boxSize % 4 ≠ 0 then ""
      else if (data.drop 4).take 4 ≠ ascii "ftyp" then ""
      else if (List.range 128).any (fun j =>
          decide (8 ≤ 4 * j) && decide (4 * j < boxSize) && decide (4 * j ≠ 12)
            && decide ((data.drop (4 * j)).take 3 = ascii "mp4")) then "video/mp4"
      else ""
  | sniffSig.textSig =>
    if (data.drop firstNonWS).any
        (fun b => decide (b ≤ 8) || decide (b = 11) || (decide (14 ≤ b) && decide (b ≤ 26))
          || (decide (28 ≤ b) && decide (b ≤ 31))) then ""
    else "text/plain; charset=utf-8"

/-- The table `sniffSignatures`, in order, as in current Go releases
(earlier releases name a few image and font types differently; no release
has a JSON type in the table). -/
def sniffSignatures : List sniffSig :=
  [ sniffSig.htmlSig (ascii "<!DOCTYPE HTML"),
    sniffSig.htmlSig (ascii "<HTML"),
    sniffSig.htmlSig (ascii "<HEAD"),
    sniffSig.htmlSig (ascii "<SCRIPT"),
    sniffSig.htmlSig (ascii "<IFRAME"),
    sniffSig.htmlSig (ascii "<H1"),
    sniffSig.htmlSig (ascii "<DIV"),
    sniffSig.htmlSig (ascii "<FONT"),
    sniffSig.htmlSig (ascii "<TABLE"),
    sniffSig.htmlSig (ascii "<A"),
    sniffSig.htmlSig (ascii "<STYLE"),
    sniffSig.htmlSig (ascii "<TITLE"),
    sniffSig.htmlSig (ascii "<B"),
    sniffSig.htmlSig (ascii "<BODY"),
    sniffSig.htmlSig (ascii "<BR"),
    sniffSig.htmlSig (ascii "<P"),
    sniffSig.htmlSig (ascii "<!--"),
    sniffSig.maskedSig [255, 255, 255, 255, 255] (ascii "<?xml") true "text/xml; charset=utf-8",
    sniffSig.exactSig (ascii "%PDF-") "application/pdf",
    sniffSig.exactSig (ascii "%!PS-Adobe-") "application/postscript",
    sniffSig.maskedSig [255, 255, 0, 0] [254, 255, 0, 0] false "text/plain; charset=utf-16be",
    sniffSig.maskedSig [255, 255, 0, 0] [255, 254, 0, 0] false "text/plain; charset=utf-16le",
    sniffSig.maskedSig [255, 255, 255, 0] [239, 187, 191, 0] false "text/plain; charset=utf-8",
    sniffSig.exactSig [0, 0, 1, 0] "image/x-icon",
    sniffSig.exactSig [0, 0, 2, 0] "image/x-icon",
    sniffSig.exactSig (ascii "BM") "image/bmp",
    sniffSig.exactSig (ascii "GIF87a") "image/gif",
    sniffSig.exactSig (ascii "GIF89a") "image/gif",
    sniffSig.exactSig [137, 80, 78, 71, 13, 10, 26, 10] "image/png",
    sniffSig.exactSig [255, 216, 255] "image/jpeg",
    sniffSig.maskedSig [255, 255, 255, 255, 0, 0, 0, 0, 255, 255, 255, 255, 255, 255]
      (ascii "RIFF" ++ [0, 0, 0, 0] ++ ascii "WEBPVP") false "image/webp",
    sniffSig.maskedSig [255, 255, 255, 255, 0, 0, 0, 0, 255, 255, 255, 255]
      (ascii "FORM" ++ [0, 0, 0, 0] ++ ascii "AIFF") false "audio/aiff",
    sniffSig.maskedSig [255, 255, 255] (ascii "ID3") false "audio/mpeg",
    sniffSig.maskedSig [255, 255, 255, 255, 255] (ascii "OggS" ++ [0]) false "application/ogg",
    sniffSig.maskedSig [255, 255, 255, 255, 255, 255, 255, 255] (ascii "MThd" ++ [0, 0, 0, 6])
      false "audio/midi",
    sniffSig.maskedSig [255, 255, 255, 255, 0, 0, 0, 0, 255, 255, 255, 255]
      (ascii "RIFF" ++ [0, 0, 0, 0] ++ ascii "AVI ") false "video/avi",
    sniffSig.maskedSig [255, 255, 255, 255, 0, 0, 0, 0, 255, 255, 255, 255]
      (ascii "RIFF" ++ [0, 0, 0, 0] ++ ascii "WAVE") false "audio/wave",
    sniffSig.mp4Sig,
    sniffSig.exactSig [26, 69, 223, 163] "video/webm",
    sniffSig.maskedSig (List.replicate 34 0 ++ [255, 255]) (List.replicate 34 0 ++ ascii "LP")
      false "application/vnd.ms-fontobject",
    sniffSig.exactSig [0, 1, 0, 0] "font/ttf",
    sniffSig.exactSig (ascii "OTTO") "font/otf",
    sniffSig.exactSig (ascii "ttcf") "font/collection",
    sniffSig.exactSig (ascii "wOFF") "font/woff",
    sniffSig.exactSig (ascii "wOF2") "font/woff2",
    sniffSig.exactSig [31, 139, 8] "application/x-gzip",
    sniffSig.exactSig (ascii "PK" ++ [3, 4]) "application/zip",
    sniffSig.exactSig (ascii "Rar!" ++ [26, 7, 0]) "application/x-rar-compressed",
    sniffSig.exactSig (ascii "Rar!" ++ [26, 7, 1, 0]) "application/x-rar-compressed",
    sniffSig.exactSig [0, 97, 115, 109] "application/wasm",
    sniffSig.textSig ]

/-- The loop of `DetectContentType` over the signatures: the first content
type that is not empty, or the fallback. -/
def firstMatch : List sniffSig → List Nat → Nat → String
  | [], _, _ => "application/octet-stream"
  | sig :: rest, data, firstNonWS =>
    if sig.matchData data firstNonWS ≠ "" then sig.matchData data firstNonWS
    else firstMatch rest data firstNonWS

/-- The function `http.DetectContentType` on the bytes `data`: at most the
first 512 bytes are looked at. -/
def DetectContentType (data : List Nat) : String :=
  let data1 := data.take 512
  let firstNonWS := (data1.takeWhile isWS).length
  firstMatch sniffSignatures data1 firstNonWS

/-- A response writer as `httptest.ResponseRecorder` keeps it: the header
map, whether the status line was written, the status code and the body. -/
structure ResponseWriter where
  header : Header
  wroteHeader : Bool
  Code : Nat
  Body : String

/-- The constructor `httptest.NewRecorder()`. -/
def NewRecorder : ResponseWriter :=
  { header := GoMap.empty, wroteHeader := false, Code := 200, Body := "" }

/-- The method `WriteHeader`: the first call fixes the status code. -/
def ResponseWriter.WriteHeader (w : ResponseWriter) (code : Nat) : ResponseWriter :=
  if w.wroteHeader then w else { w with wroteHeader := true, Code := code }

/-- The recorder's `writeHeader`, run at the start of every write: when no
status was written yet and the header map has neither a `Content-Type`
entry nor a `Transfer-Encoding` value, the content type detected from the
data is set; then comes the implicit `WriteHeader(200)`. -/
def ResponseWriter.writeHeader (w : ResponseWriter) (data : String) : ResponseWriter :=
  if w.wroteHeader then w
  else
    let hasType := (GoMap.get w.header "Content-Type").isSome
    let hasTE := Header.Get w.header "Transfer-Encoding" != ""
    let m :=
      if !hasType && !hasTE then
        Header.Set w.header "Content-Type" (DetectContentType (bytesOf data))
      else w.header
    ResponseWriter.WriteHeader { w with header := m } 200

/-- The method `Write` (also `io.WriteString`): `writeHeader`, then the
data is appended to the body. -/
def ResponseWriter.Write (w : ResponseWriter) (data : String) : ResponseWriter :=
  let w1 := w.writeHeader data
  { w1 with Body := w1.Body ++ data }

/-- The function `http.Error`: a plain-text content type, the status code,
and the message followed by a newline. -/
def Error (w : ResponseWriter) (error : String) (code : Nat) : ResponseWriter :=
  let h1 := Header.Set w.header "Content-Type" "text/plain; charset=utf-8"
  let h2 := Header.Set h1 "X-Content-Type-Options" "nosniff"
  let w1 := ResponseWriter.WriteHeader { w with header := h2 } code
  ResponseWriter.Write w1 (error ++ "\n")

end http

/-! ## Package `net/url` -/

namespace url

/-- The fields of `url.URL` the server reads or writes; the remaining
fields travel unchanged in `rest`. -/
structure URL where
  Scheme : String
  Host : String
  Path : String
  rest : String
  deriving DecidableEq, Repr

end url

/-! ## Package `stats` -/

namespace stats

/-- The value of a Go `int64` computation: wrap-around into
`[-2^63, 2^63)`. -/
def wrapInt64 (x : Int) : Int := (x + 2 ^ 63) % 2 ^ 64 - 2 ^ 63

/-- The record `stats.UserStats`. -/
structure UserStats where
  LastSuccessful : Int
  SuccessCounter : Int
  LastUnsuccessful : Int
  UnsuccessCounter : Int
  deriving DecidableEq, Repr

/-- Both counters of a record are `int64` values. -/
def UserStats.InRange (r : UserStats) : Prop :=
  (-2 ^ 63 ≤ r.SuccessCounter ∧ r.SuccessCounter < 2 ^ 63) ∧
  (-2 ^ 63 ≤ r.UnsuccessCounter ∧ r.UnsuccessCounter < 2 ^ 63)

/-- The zero value `UserStats{}`. -/
def UserStats.zero : UserStats :=
  { LastSuccessful := 0, SuccessCounter := 0, LastUnsuccessful := 0, UnsuccessCounter := 0 }

/-- The struct `stats.Keeper`: a map from username to a pointer to that
user's record.  Every pointer stored by `NewKeeper` is to a record of its
own, so the map is kept by value; an absent key reads as the nil pointer.
The read-write lock serialises the methods, each of which runs here as one
step. -/
structure Keeper where
  UserStats : GoMap UserStats

/-- The constructor `NewKeeper`: one zero record per listed name. -/
def NewKeeper (usernames : List String) : Keeper :=
  usernames.foldl (fun k name => { UserStats := GoMap.set k.UserStats name UserStats.zero })
    { UserStats := GoMap.empty }

/-- The method `IncrementAuthorizedAttempt` at clock reading `now`.
`none` is the run-time panic of writing through the nil pointer that the
map lookup yields for an absent key. -/
def Keeper.IncrementAuthorizedAttempt (now : Int) (me : Keeper) (username : String) :
    Option Keeper :=
  match GoMap.get me.UserStats username with
  | none => none
  | some stats =>
    let stats1 := { stats with LastSuccessful := now }
    let stats2 := { stats1 with SuccessCounter := wrapInt64 (stats1.SuccessCounter + 1) }
    some { UserStats := GoMap.set me.UserStats username stats2 }

/-- The method `IncrementUnauthorizedAttempt` at clock reading `now`;
`none` is the nil-pointer panic, as above. -/
def Keeper.IncrementUnauthorizedAttempt (now : Int) (me : Keeper) (username : String) :
    Option Keeper :=
  match GoMap.get me.UserStats username with
  | none => none
  | some stats =>
    let stats1 := { stats with LastUnsuccessful := now }
    let stats2 := { stats1 with UnsuccessCounter := wrapInt64 (stats1.UnsuccessCounter + 1) }
    some { UserStats := GoMap.set me.UserStats username stats2 }

/-- The output of `json.Marshal` on a `*UserStats`: `null` for the nil
pointer, otherwise the four tagged fields in declaration order. -/
def marshalUserStats : Option UserStats → String
  | none => "null"
  | some s =>
    "\x7b\"last_successful_session_unix_time\":" ++ toString s.LastSuccessful
      ++ ",\"authorized_attempt\":" ++ toString s.SuccessCounter
      ++ ",\"last_unsucessful_session_unix_time\":" ++ toString s.LastUnsuccessful
      ++ ",\"unauthorized_attempt\":" ++ toString s.UnsuccessCounter ++ "\x7d"

/-- The method `GetStats`: the JSON form of the user's record. -/
def Keeper.GetStats (me : Keeper) (username : String) : String :=
  marshalUserStats (GoMap.get me.UserStats username)

/-- The method `GetStats` as a step on the keeper, like the two increments:
the string returned and the keeper afterwards.  The body takes the read
lock, looks the record up and marshals it; it assigns to no field and to
no map entry. -/
def Keeper.GetStatsStep (me : Keeper) (username : String) : String × Keeper :=
  let stats := GoMap.get me.UserStats username
  let jsonBytes := marshalUserStats stats
  (jsonBytes, me)

/-- The keepers a program can hold after `NewKeeper(names)`: the new
keeper itself, and every keeper that a call of one of the two increments
has returned from such a keeper (`GetStats` leaves the keeper as it is). -/
inductive BuiltBy (names : List String) : Keeper → Prop where
  | new : BuiltBy names (NewKeeper names)
  | authorized (k k2 : Keeper) (now : Int) (username : String) :
      BuiltBy names k → k.IncrementAuthorizedAttempt now username = some k2 → BuiltBy names k2
  | unauthorized (k k2 : Keeper) (now : Int) (username : String) :
      BuiltBy names k → k.IncrementUnauthorizedAttempt now username = some k2 → BuiltBy names k2

/-- The keeper after `n` calls of `IncrementAuthorizedAttempt(username)` in
a row, each at clock reading `now`; `none` once a call has panicked. -/
def repeatAuthorized : Nat → Int → String → Keeper → Option Keeper
  | 0, _, _, k => some k
  | n + 1, now, username, k =>
    match repeatAuthorized n now username k with
    | none => none
    | some k1 => k1.IncrementAuthorizedAttempt now username

/-- The `SuccessCounter` of `username` in a keeper that may be missing. -/
def successCounterOf (k : Option Keeper) (username : String) : Option Int :=
  match k with
  | none => none
  | some k1 =>
    match GoMap.get k1.UserStats username with
    | none => none
    | some r => some r.SuccessCounter

end stats

/-! ## Package `auth` -/

namespace auth

/-- The struct `auth.PomClaims`: the username and the two standard claims
that `GetToken` fills in; the other standard claims keep their zero value. -/
structure PomClaims where
  Username : String
  IssuedAt : Int
  ExpiresAt : Int
  deriving DecidableEq, Repr

/-- The two operations of the `jwt-go` library that depend on the key and
the wire format, taken as parameters: `SignedString` serialises and signs
the claims (HS256), `verify` decodes a token string and checks its
signature under the key, answering `none` for a malformed token or a
signature that does not verify. -/
structure JWT where
  SignedString : String → PomClaims → Except String String
  verify : String → String → Option PomClaims

/-- The library contract: a token signed under a key verifies under the same
key and decodes to the claims that were signed. -/
def JWT.RoundTrip (lib : JWT) : Prop :=
  ∀ (key : String) (c : PomClaims) (tok : String),
    lib.SignedString key c = Except.ok tok → lib.verify key tok = some c

/-- The library function `verifyExp` with `required = false`. -/
def verifyExp (exp now : Int) : Bool :=
  if exp = 0 then true else decide (now ≤ exp)

/-- The library function `verifyIat` with `required = false`. -/
def verifyIat (iat now : Int) : Bool :=
  if iat = 0 then true else decide (iat ≤ now)

/-- The library method `StandardClaims.Valid` at clock reading `now`; the
not-before claim is zero and always passes. -/
def PomClaims.Valid (c : PomClaims) (now : Int) : Bool :=
  verifyExp c.ExpiresAt now && verifyIat c.IssuedAt now

/-- The library function `jwt.ParseWithClaims` with the key function of
`ValidateToken`: the token must verify under the key and its claims must be
valid at `now`. -/
def ParseWithClaims (lib : JWT) (key : String) (now : Int) (base64Token : String) :
    Except String PomClaims :=
  match lib.verify key base64Token with
  | none => Except.error "token is malformed or signature is invalid"
  | some c => if c.Valid now then Except.ok c else Except.error "token claims are invalid"

/-- The method `JWTAuth.GetToken`.  Its body reads the clock twice:
`nowExpiry` is the Unix second of the first reading, to which the ten
minutes are added, and `nowIssued` is the Unix second of the second
reading, which becomes `IssuedAt`.  (Adding whole minutes and then taking
`Unix()` is the same as adding 600 to the second of the reading.) -/
def GetToken (lib : JWT) (key : String) (nowExpiry nowIssued : Int) (username : String) :
    Except String String :=
  let expirationTime := nowExpiry + 10 * 60
  let claims : PomClaims :=
    { Username := username, IssuedAt := nowIssued, ExpiresAt := expirationTime }
  match lib.SignedString key claims with
  | Except.error err => Except.error ("failed to sign jwt token: " ++ err)
  | Except.ok tokenString => Except.ok tokenString

/-- The method `JWTAuth.ValidateToken`.  The clock is read twice here too:
`nowParse` is the second the library reads when it validates the claims
inside `ParseWithClaims`, `nowCheck` the second of the method's own expiry
test afterwards. -/
def ValidateToken (lib : JWT) (key : String) (nowParse nowCheck : Int) (base64Token : String) :
    String × Bool :=
  match ParseWithClaims lib key nowParse base64Token with
  | Except.error _ => ("", false)
  | Except.ok pomClaims =>
    if pomClaims.ExpiresAt < nowCheck then ("", false)
    else (pomClaims.Username, true)

end auth

/-! ## Package `config` -/

namespace config

/-- The struct `config.User`. -/
structure User where
  Username : String
  PassHash : String
  deriving DecidableEq, Repr

/-- The struct `config.Route`. -/
structure Route where
  Name : String
  Destination : String
  AllowedUsers : List String
  deriving DecidableEq, Repr

/-- The struct `config.PomConfig`. -/
structure PomConfig where
  SharedKey : String
  Users : List User
  Routes : List Route
  passHashes : GoMap String
  destinations : GoMap String
  userGate : GoMap (List String)

/-- The function `ParseConfig` from the point where the JSON file has been
unmarshalled into the three exported fields: it fills the helper maps. -/
def ParseConfig (SharedKey : String) (Users : List User) (Routes : List Route) : PomConfig :=
  let passHashes :=
    Users.foldl (fun m user => GoMap.set m user.Username user.PassHash) GoMap.empty
  let maps :=
    Routes.foldl
      (fun (m : GoMap String × GoMap (List String)) route =>
        (GoMap.set m.1 route.Name route.Destination,
          GoMap.set m.2 route.Name route.AllowedUsers))
      (GoMap.empty, GoMap.empty)
  { SharedKey := SharedKey, Users := Users, Routes := Routes,
    passHashes := passHashes, destinations := maps.1, userGate := maps.2 }

/-- The method `PomConfig.CheckUsername`. -/
def PomConfig.CheckUsername (me : PomConfig) (username : String) : Bool :=
  match GoMap.get me.passHashes username with
  | none => false
  | some _ => true

/-- The method `PomConfig.CheckPassword`; `CompareHashAndPassword` is the
bcrypt comparison of the `x/crypto` library, true when it reports no
error. -/
def PomConfig.CheckPassword (CompareHashAndPassword : String → String → Bool)
    (me : PomConfig) (username password : String) : Bool :=
  match GoMap.get me.passHashes username with
  | none => false
  | some hashed => CompareHashAndPassword hashed password

/-- The method `PomConfig.GetAddress`: the destination and the comma-ok
flag; an absent key gives the zero string. -/
def PomConfig.GetAddress (me : PomConfig) (target : String) : String × Bool :=
  match GoMap.get me.destinations target with
  | none => ("", false)
  | some addr => (addr, true)

/-- The method `PomConfig.IsUserAllowed`. -/
def PomConfig.IsUserAllowed (me : PomConfig) (target username : String) : Bool :=
  match GoMap.get me.userGate target with
  | none => false
  | some users => users.any (fun user => user = username)

end config

/-! ## Package `pom` -/

namespace pom

/-- The interface `pom.UserStore`. -/
structure UserStore where
  CheckUsername : String → Bool
  CheckPassword : String → String → Bool

/-- The interface `pom.RouteStore`. -/
structure RouteStore where
  IsUserAllowed : String → String → Bool
  GetAddress : String → String × Bool

/-- The interface `pom.UserStats` over an implementation with state `σ`.
The two increments answer `none` when the call panics. -/
structure UserStats (σ : Type) where
  IncrementAuthorizedAttempt : σ → String → Option σ
  IncrementUnauthorizedAttempt : σ → String → Option σ
  GetStats : σ → String → String

/-- The interface `pom.AuthProvider`. -/
structure AuthProvider where
  GetToken : String → Except String String
  ValidateToken : String → String × Bool

/-- The parts of `http.Request` the handlers use: the `Host` field, the
URL, the header map, and the route-variable map that `mux.Vars` finds in
the request context (`none` when there is none). -/
structure Request where
  Host : String
  URL : url.URL
  Header : http.Header
  vars : Option (GoMap String)

/-- The function `mux.Vars`. -/
def Vars (req : Request) : Option (GoMap String) := req.vars

/-- The comma-ok lookup in a map that may be nil. -/
def lookupVar (params : Option (GoMap String)) (k : String) : Option String :=
  match params with
  | none => none
  | some m => GoMap.get m k

/-- The forwarding handler `httputil.ReverseProxy`, identified by the target
it was built for. -/
structure ReverseProxy where
  target : url.URL
  deriving DecidableEq, Repr

/-- The constructor `httputil.NewSingleHostReverseProxy`. -/
def NewSingleHostReverseProxy (target : url.URL) : ReverseProxy := { target := target }

/-- The standard-library operations the handlers call whose results depend
on data outside the embedding, taken as parameters: `Request.BasicAuth`,
`url.Parse` (`none` for a parse error), `URL.String`, and the round trip to
the backend made by `ReverseProxy.ServeHTTP`. -/
structure Net where
  BasicAuth : Request → Option (String × String)
  Parse : String → Option url.URL
  URLString : url.URL → String
  ServeHTTP : ReverseProxy → http.ResponseWriter → Request → http.ResponseWriter

/-- The injected dependencies of `pom.PomServer`. -/
structure PomServer (σ : Type) where
  userStore : UserStore
  routeStore : RouteStore
  userStats : UserStats σ
  authProvider : AuthProvider

/-- The mutable state reached from a `PomServer`: the state of the stats
collaborator and the proxy cache `proxies`. -/
structure State (σ : Type) where
  userStats : σ
  proxies : GoMap ReverseProxy

/-- What a handler call leaves behind: the response as written, the state,
and whether the call ended in a panic. -/
structure Outcome (ω : Type) where
  res : http.ResponseWriter
  world : ω
  panicked : Bool

/-- The type `http.HandlerFunc` over a state `ω`. -/
abbrev HandlerFunc (ω : Type) : Type := http.ResponseWriter → Request → ω → Outcome ω

/-- The method `PomServer.HandleSessionCreate`. -/
def HandleSessionCreate {σ : Type} (net : Net) (me : PomServer σ) : HandlerFunc (State σ) :=
  fun res req st =>
    match net.BasicAuth req with
    | none =>
      let res1 := { res with header := http.Header.Set res.header "WWW-Authenticate" "Basic realm=\"Restricted\"" }
      { res := http.Error res1 "Not authenticated" 401, world := st, panicked := false }
    | some (username, password) =>
      let userFound := me.userStore.CheckUsername username
      if !userFound then
        { res := http.Error res "Username not found" 404, world := st, panicked := false }
      else
        let authenticated := me.userStore.CheckPassword username password
        if !authenticated then
          let res1 := http.Error res "Forbidden" 403
          match me.userStats.IncrementUnauthorizedAttempt st.userStats username with
          | none => { res := res1, world := st, panicked := true }
          | some s => { res := res1, world := { st with userStats := s }, panicked := false }
        else
          match me.authProvider.GetToken username with
          | Except.error _ =>
            { res := http.Error res "Internal err" 500, world := st, panicked := false }
          | Except.ok token =>
            match me.userStats.IncrementAuthorizedAttempt st.userStats username with
            | none => { res := res, world := st, panicked := true }
            | some s =>
              { res := res.Write ("\x7b\"token\":\"" ++ token ++ "\"\x7d"),
                world := { st with userStats := s }, panicked := false }

/-- The method `PomServer.AuthMiddleware`. -/
def AuthMiddleware {σ ω : Type} (me : PomServer σ) (next : HandlerFunc ω) : HandlerFunc ω :=
  fun res req w =>
    let auth := http.Header.Get req.Header "Authorization"
    let authSplit := strings.SplitSpace auth
    if authSplit.length ≠ 2 then
      { res := http.Error res "Not authorized" 401, world := w, panicked := false }
    else
      let authType := authSplit.getD 0 ""
      let token := authSplit.getD 1 ""
      if strings.ToLower authType ≠ "bearer" then
        { res := http.Error res "Not authorized" 401, world := w, panicked := false }
      else
        let (username, valid) := me.authProvider.ValidateToken token
        if !valid then
          { res := http.Error res "Not authorized" 401, world := w, panicked := false }
        else
          match Vars req with
          | none => { res := http.Error res "Internal error" 500, world := w, panicked := false }
          | some vars =>
            next res { req with vars := some (GoMap.set vars "username" username) } w

/-- The method `PomServer.HandleStatsRequest`. -/
def HandleStatsRequest {σ : Type} (me : PomServer σ) : HandlerFunc (State σ) :=
  fun res req st =>
    let params := Vars req
    match lookupVar params "username" with
    | none => { res := http.Error res "Internal Error" 500, world := st, panicked := false }
    | some username =>
      match lookupVar params "user" with
      | none => { res := http.Error res "Internal Error" 500, world := st, panicked := false }
      | some user =>
        if username ≠ user then
          { res := http.Error res "Forbidden" 403, world := st, panicked := false }
        else
          let stats := me.userStats.GetStats st.userStats user
          { res := res.Write stats, world := st, panicked := false }

/-- The method `PomServer.getReverseProxy` on the cache `proxies`: the
handle returned and the cache afterwards. -/
def getReverseProxy (net : Net) (proxies : GoMap ReverseProxy) (url : url.URL) :
    ReverseProxy × GoMap ReverseProxy :=
  match GoMap.get proxies (net.URLString url) with
  | some proxy => (proxy, proxies)
  | none =>
    let proxy := NewSingleHostReverseProxy url
    (proxy, GoMap.set proxies (net.URLString url) proxy)

/-- The method `PomServer.updateForRedirection`: the request after the five
assignments, in source order. -/
def updateForRedirection (url : url.URL) (req : Request) : Request :=
  let req1 := { req with Host := url.Host }
  let req2 := { req1 with URL := { req1.URL with Host := url.Host } }
  let req3 := { req2 with URL := { req2.URL with Scheme := url.Scheme } }
  let req4 := { req3 with URL := { req3.URL with Path := "/" } }
  { req4 with Header := http.Header.Set req4.Header "X-Forwarded-Host" (http.Header.Get req4.Header "Host") }

/-- The method `PomServer.HandleProxyRequest`. -/
def HandleProxyRequest {σ : Type} (net : Net) (me : PomServer σ) : HandlerFunc (State σ) :=
  fun res req st =>
    let params := Vars req
    match lookupVar params "username" with
    | none => { res := http.Error res "Internal Error" 500, world := st, panicked := false }
    | some username =>
      match lookupVar params "target" with
      | none => { res := http.Error res "Internal error" 500, world := st, panicked := false }
      | some targetName =>
        let authorized := me.routeStore.IsUserAllowed targetName username
        if !authorized then
          { res := http.Error res "Forbidden" 403, world := st, panicked := false }
        else
          let (target, found) := me.routeStore.GetAddress targetName
          if !found then
            { res := http.Error res "Target not found" 404, world := st, panicked := false }
          else
            match net.Parse target with
            | none => { res := http.Error res "Internal error" 500, world := st, panicked := false }
            | some url =>
              let req1 := updateForRedirection url req
              let (revProxy, proxies1) := getReverseProxy net st.proxies url
              { res := net.ServeHTTP revProxy res req1,
                world := { st with proxies := proxies1 }, panicked := false }

/-- The constructor `NewServer`: the dependencies as injected (the listen
address plays no part in the handlers). -/
def NewServer {σ : Type} (users : UserStore) (routes : RouteStore) (statsKeeper : UserStats σ)
    (auth : AuthProvider) : PomServer σ :=
  { userStore := users, routeStore := routes, userStats := statsKeeper, authProvider := auth }

/-- The state of a server just built by `NewServer` around the stats state
`s`: the proxy cache is the empty map. -/
def NewState {σ : Type} (s : σ) : State σ := { userStats := s, proxies := GoMap.empty }

/-- The stats collaborator wired in by `main`: a `stats.Keeper` read at
clock reading `now`. -/
def keeperStats (now : Int) : UserStats stats.Keeper :=
  { IncrementAuthorizedAttempt := stats.Keeper.IncrementAuthorizedAttempt now,
    IncrementUnauthorizedAttempt := stats.Keeper.IncrementUnauthorizedAttempt now,
    GetStats := stats.Keeper.GetStats }

/-- The user collaborator wired in by `main`: the parsed configuration. -/
def configUsers (CompareHashAndPassword : String → String → Bool) (conf : config.PomConfig) :
    UserStore :=
  { CheckUsername := conf.CheckUsername,
    CheckPassword := conf.CheckPassword CompareHashAndPassword }

/-- The list of usernames that `run` in `main` collects from the parsed
configuration for `NewKeeper`. -/
def usernamesOf (conf : config.PomConfig) : List String :=
  conf.Users.foldl (fun usernames user => usernames ++ [user.Username]) []

/-- The route collaborator wired in by `main`: the parsed configuration. -/
def configRoutes (conf : config.PomConfig) : RouteStore :=
  { IsUserAllowed := conf.IsUserAllowed, GetAddress := conf.GetAddress }

/-- The token collaborator wired in by `main`: a `JWTAuth` with its key;
the four numbers are the clock readings of its two methods. -/
def jwtProvider (lib : auth.JWT) (key : String) (nowExpiry nowIssued nowParse nowCheck : Int) :
    AuthProvider :=
  { GetToken := auth.GetToken lib key nowExpiry nowIssued,
    ValidateToken := auth.ValidateToken lib key nowParse nowCheck }

end pom

/-! ## Package `mocks` and further fixtures -/

namespace mocks

/-- The struct `mocks.MockConfig`: fixed answers for the user store and the
route store. -/
structure MockConfig where
  UserCheck : Bool
  PassCheck : Bool
  UserAllowed : Bool
  Address : String
  deriving DecidableEq, Repr

/-- The method `MockConfig.CheckUsername`. -/
def MockConfig.CheckUsername (me : MockConfig) (_username : String) : Bool := me.UserCheck

/-- The method `MockConfig.CheckPassword`. -/
def MockConfig.CheckPassword (me : MockConfig) (_username _password : String) : Bool :=
  me.PassCheck

/-- The method `MockConfig.IsUserAllowed`. -/
def MockConfig.IsUserAllowed (me : MockConfig) (_target _username : String) : Bool :=
  me.UserAllowed

/-- The method `MockConfig.GetAddress`. -/
def MockConfig.GetAddress (me : MockConfig) (_target : String) : String × Bool :=
  (me.Address, true)

end mocks

namespace auth

/-- A number in unary, closed by a dot. -/
def encNat (n : Nat) : List Char := List.replicate n 'x' ++ ['.']

/-- An integer as a sign character and its magnitude in unary. -/
def encInt (i : Int) : List Char := (if i < 0 then '-' else '+') :: encNat i.natAbs

/-- Reads back `encNat`, returning the number and the unread characters. -/
def decNat : List Char → Option (Nat × List Char)
  | [] => none
  | c :: cs =>
    if c = '.' then some (0, cs)
    else if c = 'x' then
      match decNat cs with
      | none => none
      | some (n, r) => some (n + 1, r)
    else none

/-- Reads back `encInt`. -/
def decInt : List Char → Option (Int × List Char)
  | [] => none
  | c :: cs =>
    match decNat cs with
    | none => none
    | some (n, r) =>
      if c = '-' then some (-(n : Int), r)
      else if c = '+' then some ((n : Int), r)
      else none

/-- The token of `unaryJWT`: the length of the key, the key, the two
timestamps, the username. -/
def unaryToken (key : String) (c : PomClaims) : String :=
  String.mk (encNat key.data.length ++ key.data ++ encInt c.IssuedAt ++ encInt c.ExpiresAt
    ++ c.Username.data)

/-- Reads a `unaryToken` back, checking that it carries the key. -/
def unaryVerify (key tok : String) : Option PomClaims :=
  match decNat tok.data with
  | none => none
  | some (n, r1) =>
    if r1.take n = key.data then
      match decInt (r1.drop n) with
      | none => none
      | some (iat, r2) =>
        match decInt r2 with
        | none => none
        | some (exp, r3) => some { Username := String.mk r3, IssuedAt := iat, ExpiresAt := exp }
    else none

/-- A small executable instance of the token library interface, used to
run the statements on concrete inputs: the key stands in for the
signature. -/
def unaryJWT : JWT :=
  { SignedString := fun key c => Except.ok (unaryToken key c), verify := unaryVerify }

end auth

namespace pom

/-- A `MockConfig` as the user store, as the server tests inject it. -/
def mockUserStore (m : mocks.MockConfig) : UserStore :=
  { CheckUsername := m.CheckUsername, CheckPassword := m.CheckPassword }

/-- A `MockConfig` as the route store, as the server tests inject it. -/
def mockRouteStore (m : mocks.MockConfig) : RouteStore :=
  { IsUserAllowed := m.IsUserAllowed, GetAddress := m.GetAddress }

/-- The header check of `AuthMiddleware` passes with `token`: the
`Authorization` value splits at single spaces into exactly two pieces, the
first is `bearer` in any letter case, and the second is `token`. -/
def passesHeaderCheck (req : Request) (token : String) : Prop :=
  ∃ authType, strings.SplitSpace (http.Header.Get req.Header "Authorization") = [authType, token]
    ∧ strings.ToLower authType = "bearer"

/-- An instrumented handler: it behaves as `next` and appends the request it
was called with to a call log kept beside the state. -/
def recordCalls {ω : Type} (next : HandlerFunc ω) : HandlerFunc (ω × List Request) :=
  fun res req w =>
    let out := next res req w.1
    { res := out.res, world := (out.world, w.2 ++ [req]), panicked := out.panicked }

/-- The header form the specification asks for: exactly two
white-space-separated fields, the first being `bearer` in any letter
case. -/
def specBearerForm (auth : String) : Bool :=
  match strings.Fields auth with
  | [scheme, _] => decide (strings.ToLower scheme = "bearer")
  | _ => false

/-- A handler that writes `ok` and returns. -/
def okHandler {ω : Type} : HandlerFunc ω :=
  fun res _ w => { res := res.Write "ok", world := w, panicked := false }

/-- An auth provider with fixed answers: every username gets the token
`tok` or the error `err`, and every token validates as `bob` or not at
all. -/
def fixedProvider (tokenOK valid : Bool) : AuthProvider :=
  { GetToken := fun _ => if tokenOK then Except.ok "tok" else Except.error "err",
    ValidateToken := fun _ => ("bob", valid) }

/-- A test server over a `stats.Keeper` read at clock reading `now`. -/
def testServer (m : mocks.MockConfig) (provider : AuthProvider) (now : Int) :
    PomServer stats.Keeper :=
  { userStore := mockUserStore m, routeStore := mockRouteStore m,
    userStats := keeperStats now, authProvider := provider }

/-- A test server whose route store is a parsed configuration. -/
def routedServer (conf : config.PomConfig) : PomServer stats.Keeper :=
  { userStore := mockUserStore { UserCheck := true, PassCheck := true, UserAllowed := false, Address := "" },
    routeStore := configRoutes conf,
    userStats := keeperStats 100,
    authProvider := fixedProvider true true }

/-- A request with the given `Authorization` header value and route
variables. -/
def requestWith (authorization : String) (vars : Option (GoMap String)) : Request :=
  { Host := "gateway.local",
    URL := { Scheme := "http", Host := "gateway.local", Path := "/session/bob/stats", rest := "" },
    Header := http.Header.Set GoMap.empty "Authorization" authorization,
    vars := vars }

/-- A stand-in for the standard-library operations on concrete inputs:
credentials are the header value after `Basic ` cut at the colon (no
base64 layer), a URL is `scheme://host`, and the backend answers 200. -/
def testNet : Net :=
  { BasicAuth := fun req =>
      match strings.SplitSpace (http.Header.Get req.Header "Authorization") with
      | [scheme, cred] =>
        if strings.ToLower scheme = "basic" then
          match strings.splitChars ':' cred.data with
          | [u, p] => some (String.mk u, String.mk p)
          | _ => none
        else none
      | _ => none,
    Parse := fun s =>
      match strings.splitChars '/' s.data with
      | [scheme, [], host] => some { Scheme := String.mk scheme.dropLast, Host := String.mk host, Path := "", rest := "" }
      | _ => none,
    URLString := fun u => u.Scheme ++ "://" ++ u.Host ++ u.Path,
    ServeHTTP := fun _ res _ => res.Write "backend" }

end pom

/-! ## Lemmas on the library models -/

namespace GoMap

variable {V : Type}

theorem get_set_same (m : GoMap V) (k : String) (v : V) : get (set m k v) k = some v := by
  simp [get, set]

theorem get_set_other (m : GoMap V) (k k' : String) (v : V) (h : k' ≠ k) :
    get (set m k v) k' = get m k' := by
  simp [get, set, h]

theorem get_empty (k : String) : get (empty : GoMap V) k = none := rfl

end GoMap

namespace http

theorem Header.Get_Set_same (h : Header) (key value : String) :
    Header.Get (Header.Set h key value) key = value := by
  simp [Header.Get, Header.Set, GoMap.get_set_same]

theorem Header.Get_Set_other (h : Header) (key key' value : String)
    (hne : CanonicalMIMEHeaderKey key' ≠ CanonicalMIMEHeaderKey key) :
    Header.Get (Header.Set h key value) key' = Header.Get h key' := by
  simp [Header.Get, Header.Set, GoMap.get_set_other _ _ _ _ hne]

theorem writeHeader_written (w : ResponseWriter) (data : String) (hw : w.wroteHeader = true) :
    w.writeHeader data = w := by
  simp [ResponseWriter.writeHeader, hw]

theorem writeHeader_wroteHeader (w : ResponseWriter) (data : String) :
    (w.writeHeader data).wroteHeader = true := by
  cases hw : w.wroteHeader <;>
    simp [ResponseWriter.writeHeader, ResponseWriter.WriteHeader, hw]

theorem writeHeader_Body (w : ResponseWriter) (data : String) :
    (w.writeHeader data).Body = w.Body := by
  cases hw : w.wroteHeader <;>
    simp [ResponseWriter.writeHeader, ResponseWriter.WriteHeader, hw]

theorem writeHeader_Code (w : ResponseWriter) (data : String) (hw : w.wroteHeader = false) :
    (w.writeHeader data).Code = 200 := by
  simp [ResponseWriter.writeHeader, ResponseWriter.WriteHeader, hw]

theorem writeHeader_header_sniffed (w : ResponseWriter) (data : String)
    (hw : w.wroteHeader = false) (htype : GoMap.get w.header "Content-Type" = none)
    (hte : Header.Get w.header "Transfer-Encoding" = "") :
    (w.writeHeader data).header =
      Header.Set w.header "Content-Type" (DetectContentType (bytesOf data)) := by
  simp [ResponseWriter.writeHeader, ResponseWriter.WriteHeader, hw, htype, hte]

theorem Error_eq (w : ResponseWriter) (error : String) (code : Nat) :
    Error w error code =
      { header := Header.Set (Header.Set w.header "Content-Type" "text/plain; charset=utf-8")
          "X-Content-Type-Options" "nosniff",
        wroteHeader := true,
        Code := if w.wroteHeader then w.Code else code,
        Body := w.Body ++ (error ++ "\n") } := by
  cases hw : w.wroteHeader <;>
    simp [Error, ResponseWriter.Write, ResponseWriter.writeHeader, ResponseWriter.WriteHeader, hw]

theorem Error_Code (w : ResponseWriter) (error : String) (code : Nat)
    (hw : w.wroteHeader = false) : (Error w error code).Code = code := by
  rw [Error_eq]
  simp [hw]

theorem Error_wroteHeader (w : ResponseWriter) (error : String) (code : Nat) :
    (Error w error code).wroteHeader = true := by
  rw [Error_eq]

theorem Error_Body (w : ResponseWriter) (error : String) (code : Nat) :
    (Error w error code).Body = w.Body ++ (error ++ "\n") := by
  rw [Error_eq]

theorem Error_header (w : ResponseWriter) (error : String) (code : Nat) :
    (Error w error code).header =
      Header.Set (Header.Set w.header "Content-Type" "text/plain; charset=utf-8")
        "X-Content-Type-Options" "nosniff" := by
  rw [Error_eq]

theorem Write_Code (w : ResponseWriter) (data : String) (hw : w.wroteHeader = false) :
    (w.Write data).Code = 200 := by
  simp only [ResponseWriter.Write]
  exact writeHeader_Code w data hw

theorem Write_wroteHeader (w : ResponseWriter) (data : String) :
    (w.Write data).wroteHeader = true := by
  simp only [ResponseWriter.Write]
  exact writeHeader_wroteHeader w data

theorem Write_Body (w : ResponseWriter) (data : String) :
    (w.Write data).Body = w.Body ++ data := by
  simp only [ResponseWriter.Write, writeHeader_Body]

theorem Write_header_sniffed (w : ResponseWriter) (data : String)
    (hw : w.wroteHeader = false) (htype : GoMap.get w.header "Content-Type" = none)
    (hte : Header.Get w.header "Transfer-Encoding" = "") :
    (w.Write data).header =
      Header.Set w.header "Content-Type" (DetectContentType (bytesOf data)) := by
  simp only [ResponseWriter.Write]
  exact writeHeader_header_sniffed w data hw htype hte

theorem matchData_cases (sig : sniffSig) (data : List Nat) (firstNonWS : Nat) :
    sig.matchData data firstNonWS = "" ∨ sig.matchData data firstNonWS = sig.ct := by
  cases sig <;> simp only [sniffSig.matchData, sniffSig.ct] <;> (repeat' split) <;>
    first
      | exact Or.inl rfl
      | exact Or.inr rfl

theorem firstMatch_cases (sigs : List sniffSig) (data : List Nat) (firstNonWS : Nat) :
    firstMatch sigs data firstNonWS = "application/octet-stream" ∨
    ∃ sig ∈ sigs, firstMatch sigs data firstNonWS = sig.ct := by
  induction sigs with
  | nil => exact Or.inl rfl
  | cons sig rest ih =>
    unfold firstMatch
    split
    · next hne =>
      right
      rcases matchData_cases sig data firstNonWS with h | h
      · exact absurd h hne
      · exact ⟨sig, List.mem_cons_self _ _, h⟩
    · rcases ih with h | ⟨s2, hs2, h⟩
      · exact Or.inl h
      · exact Or.inr ⟨s2, List.mem_cons_of_mem _ hs2, h⟩

theorem sniffSignatures_no_json :
    sniffSignatures.all (fun sig => sig.ct != "application/json") = true := by
  decide

theorem DetectContentType_ne_json (data : List Nat) :
    DetectContentType data ≠ "application/json" := by
  unfold DetectContentType
  rcases firstMatch_cases sniffSignatures (data.take 512)
      ((data.take 512).takeWhile isWS).length with h | ⟨sig, hsig, h⟩
  · simp only [h]
    decide
  · simp only [h]
    have hall := List.all_eq_true.mp sniffSignatures_no_json sig hsig
    simpa using hall

end http

/-! ## Session creation -/

namespace pom

/-- Where the authorized-attempt increment of the stats collaborator
returns: in `HandleSessionCreate` on a fresh response writer the status is
fixed by the first failing check, in this order: no Basic credentials give
401 with the `WWW-Authenticate` challenge header; an unknown username gives
404; a wrong password gives 403; a token error gives 500; otherwise the
status is 200 and the body is exactly the token wrapped as a JSON object. -/
theorem HandleSessionCreate_status {σ : Type} (net : Net) (me : PomServer σ)
    (res : http.ResponseWriter) (req : Request) (st : State σ)
    (hw : res.wroteHeader = false) (hb : res.Body = "") :
    (net.BasicAuth req = none →
      (HandleSessionCreate net me res req st).res.Code = 401 ∧
      (HandleSessionCreate net me res req st).res.wroteHeader = true ∧
      http.Header.Get (HandleSessionCreate net me res req st).res.header "WWW-Authenticate"
        = "Basic realm=\"Restricted\"") ∧
    (∀ username password, net.BasicAuth req = some (username, password) →
      (me.userStore.CheckUsername username = false →
        (HandleSessionCreate net me res req st).res.Code = 404 ∧
        (HandleSessionCreate net me res req st).res.wroteHeader = true) ∧
      (me.userStore.CheckUsername username = true →
        me.userStore.CheckPassword username password = false →
        (HandleSessionCreate net me res req st).res.Code = 403 ∧
        (HandleSessionCreate net me res req st).res.wroteHeader = true) ∧
      (me.userStore.CheckUsername username = true →
        me.userStore.CheckPassword username password = true →
        ∀ err, me.authProvider.GetToken username = Except.error err →
        (HandleSessionCreate net me res req st).res.Code = 500 ∧
        (HandleSessionCreate net me res req st).res.wroteHeader = true) ∧
      (me.userStore.CheckUsername username = true →
        me.userStore.CheckPassword username password = true →
        ∀ t, me.authProvider.GetToken username = Except.ok t →
        (me.userStats.IncrementAuthorizedAttempt st.userStats username).isSome = true →
        (HandleSessionCreate net me res req st).res.Code = 200 ∧
        (HandleSessionCreate net me res req st).res.wroteHeader = true ∧
        (HandleSessionCreate net me res req st).res.Body = "\x7b\"token\":\"" ++ t ++ "\"\x7d" ∧
        (HandleSessionCreate net me res req st).panicked = false)) := by
  refine ⟨?_, ?_⟩
  · intro hnone
    simp only [HandleSessionCreate, hnone]
    refine ⟨http.Error_Code _ _ _ hw, http.Error_wroteHeader _ _ _, ?_⟩
    rw [http.Error_header]
    rw [http.Header.Get_Set_other _ _ _ _ (by decide),
      http.Header.Get_Set_other _ _ _ _ (by decide), http.Header.Get_Set_same]
  · intro username password hsome
    refine ⟨?_, ?_, ?_, ?_⟩
    · intro hu
      simp only [HandleSessionCreate, hsome, hu]
      exact ⟨http.Error_Code _ _ _ hw, http.Error_wroteHeader _ _ _⟩
    · intro hu hp
      simp only [HandleSessionCreate, hsome, hu, hp]
      cases me.userStats.IncrementUnauthorizedAttempt st.userStats username <;>
        exact ⟨http.Error_Code _ _ _ hw, http.Error_wroteHeader _ _ _⟩
    · intro hu hp err herr
      simp only [HandleSessionCreate, hsome, hu, hp, herr]
      exact ⟨http.Error_Code _ _ _ hw, http.Error_wroteHeader _ _ _⟩
    · intro hu hp t ht hinc
      obtain ⟨s, hs⟩ := Option.isSome_iff_exists.mp hinc
      simp only [HandleSessionCreate, hsome, hu, hp, ht, hs, Bool.not_true, Bool.false_eq_true,
        if_false]
      refine ⟨http.Write_Code _ _ hw, http.Write_wroteHeader _ _, ?_, trivial⟩
      rw [http.Write_Body, hb]
      simp

/-- The test server with a known user, a matching password and a provider
that issues `tok` answers 200 with the token object. -/
theorem HandleSessionCreate_status_witness :
    http.NewRecorder.wroteHeader = false ∧ http.NewRecorder.Body = "" ∧
    (HandleSessionCreate testNet
        (testServer { UserCheck := true, PassCheck := true, UserAllowed := false, Address := "" }
          (fixedProvider true true) 100)
        http.NewRecorder (requestWith "Basic bob:pw" none)
        { userStats := stats.NewKeeper ["bob"], proxies := GoMap.empty }).res.Code = 200 ∧
    (HandleSessionCreate testNet
        (testServer { UserCheck := true, PassCheck := true, UserAllowed := false, Address := "" }
          (fixedProvider true true) 100)
        http.NewRecorder (requestWith "Basic bob:pw" none)
        { userStats := stats.NewKeeper ["bob"], proxies := GoMap.empty }).res.Body
      = "\x7b\"token\":\"tok\"\x7d" :=
  have h := ((HandleSessionCreate_status testNet
      (testServer { UserCheck := true, PassCheck := true, UserAllowed := false, Address := "" }
        (fixedProvider true true) 100)
      http.NewRecorder (requestWith "Basic bob:pw" none)
      { userStats := stats.NewKeeper ["bob"], proxies := GoMap.empty } rfl rfl).2
      "bob" "pw" (by decide)).2.2.2 rfl rfl "tok" rfl (by decide)
  ⟨rfl, rfl, h.1, h.2.2.1⟩

/-- C1 (the code at the failing input): the server as the repository's
tests wire it, a store that knows every username and a keeper with a
record for `bob` only, receives Basic credentials of `eve`.  With a good
password every check passes and a token is issued, yet the call ends in
the panic of `IncrementAuthorizedAttempt` with nothing written: no status
and an empty body instead of 200 and the token.  With a bad password the
403 is written and the call then panics in
`IncrementUnauthorizedAttempt`. -/
theorem HandleSessionCreate_eve_panics :
    testNet.BasicAuth (requestWith "Basic eve:pw" none) = some ("eve", "pw") ∧
    (fixedProvider true true).GetToken "eve" = Except.ok "tok" ∧
    (HandleSessionCreate testNet
        (testServer { UserCheck := true, PassCheck := true, UserAllowed := false, Address := "" }
          (fixedProvider true true) 100)
        http.NewRecorder (requestWith "Basic eve:pw" none)
        (NewState (stats.NewKeeper ["bob"]))).panicked = true ∧
    (HandleSessionCreate testNet
        (testServer { UserCheck := true, PassCheck := true, UserAllowed := false, Address := "" }
          (fixedProvider true true) 100)
        http.NewRecorder (requestWith "Basic eve:pw" none)
        (NewState (stats.NewKeeper ["bob"]))).res.wroteHeader = false ∧
    (HandleSessionCreate testNet
        (testServer { UserCheck := true, PassCheck := true, UserAllowed := false, Address := "" }
          (fixedProvider true true) 100)
        http.NewRecorder (requestWith "Basic eve:pw" none)
        (NewState (stats.NewKeeper ["bob"]))).res.Body = "" ∧
    (HandleSessionCreate testNet
        (testServer { UserCheck := true, PassCheck := false, UserAllowed := false, Address := "" }
          (fixedProvider true true) 100)
        http.NewRecorder (requestWith "Basic eve:pw" none)
        (NewState (stats.NewKeeper ["bob"]))).panicked = true ∧
    (HandleSessionCreate testNet
        (testServer { UserCheck := true, PassCheck := false, UserAllowed := false, Address := "" }
          (fixedProvider true true) 100)
        http.NewRecorder (requestWith "Basic eve:pw" none)
        (NewState (stats.NewKeeper ["bob"]))).res.Code = 403 := by
  refine ⟨by decide, rfl, by decide, by decide, by decide, by decide, by decide⟩

end pom

/-! ## Token issue and validation -/

namespace auth

theorem decNat_encNat (n : Nat) (r : List Char) : decNat (encNat n ++ r) = some (n, r) := by
  induction n with
  | zero => simp [encNat, decNat]
  | succ k ih =>
    have hx : ('x' : Char) ≠ '.' := by decide
    have ih2 : decNat (List.replicate k 'x' ++ '.' :: r) = some (k, r) := by
      simpa [encNat] using ih
    simp only [encNat, List.replicate_succ, List.cons_append]
    simp [decNat, hx, ih2]

theorem decInt_encInt (i : Int) (r : List Char) : decInt (encInt i ++ r) = some (i, r) := by
  by_cases hi : i < 0
  · have hneg : -((i.natAbs : Nat) : Int) = i := by omega
    simp only [encInt, hi, if_true, List.cons_append, decInt, decNat_encNat, hneg]
  · have hpos : ((i.natAbs : Nat) : Int) = i := by omega
    have hc : ('+' : Char) ≠ '-' := by decide
    simp only [encInt, hi, if_false, List.cons_append, decInt, decNat_encNat, hpos, hc, if_true]

theorem unaryJWT_RoundTrip : unaryJWT.RoundTrip := by
  intro key c tok h
  have htok : tok = unaryToken key c := by
    simp only [unaryJWT] at h
    cases h
    rfl
  subst htok
  simp only [unaryJWT, unaryVerify, unaryToken, List.append_assoc, decNat_encNat,
    List.take_left, List.drop_left, decInt_encInt, if_true]

theorem GetToken_signed (lib : JWT) (key u : String) (nowExpiry nowIssued : Int) (tok : String)
    (hissue : GetToken lib key nowExpiry nowIssued u = Except.ok tok) :
    lib.SignedString key
      { Username := u, IssuedAt := nowIssued, ExpiresAt := nowExpiry + 600 } = Except.ok tok := by
  have h600 : nowExpiry + 10 * 60 = nowExpiry + 600 := by norm_num
  unfold GetToken at hissue
  simp only [h600] at hissue
  split at hissue
  · cases hissue
  · next tokenString hs =>
    cases hissue
    exact hs

theorem ValidateToken_verified (lib : JWT) (key : String) (nowParse nowCheck : Int)
    (tok : String) (c : PomClaims) (hv : lib.verify key tok = some c) :
    ValidateToken lib key nowParse nowCheck tok =
      if c.Valid nowParse = true ∧ ¬ (c.ExpiresAt < nowCheck) then (c.Username, true)
      else ("", false) := by
  by_cases hvalid : c.Valid nowParse = true
  · by_cases hexp : c.ExpiresAt < nowCheck
    · simp [ValidateToken, ParseWithClaims, hv, hvalid, hexp]
    · simp [ValidateToken, ParseWithClaims, hv, hvalid, hexp]
  · simp [ValidateToken, ParseWithClaims, hv, hvalid]

/-- C2 (amended): `GetToken` reads the clock twice, at second `e` for the
expiry and at second `i` for `IssuedAt`; `ValidateToken` reads it at
second `p` inside the library and at second `c` for its own test.  With
`i ≤ p ≤ c` and a library whose signatures verify under the signing key,
the token issued for `u` validates as `(u, true)` when `c ≤ e + 600` and as
`("", false)` once `c` exceeds `e + 600`. -/
theorem ValidateToken_GetToken (lib : JWT) (hlib : lib.RoundTrip) (key u : String)
    (e i p c : Int) (tok : String) (hissue : GetToken lib key e i u = Except.ok tok)
    (hip : i ≤ p) (hpc : p ≤ c) :
    ValidateToken lib key p c tok = if c ≤ e + 600 then (u, true) else ("", false) := by
  have hv := hlib key _ tok (GetToken_signed lib key u e i tok hissue)
  rw [ValidateToken_verified lib key p c tok _ hv]
  by_cases hle : c ≤ e + 600
  · have hvalid : PomClaims.Valid { Username := u, IssuedAt := i, ExpiresAt := e + 600 } p
        = true := by
      simp only [PomClaims.Valid, verifyExp, verifyIat, Bool.and_eq_true]
      constructor
      · split
        · rfl
        · simp only [decide_eq_true_eq]
          omega
      · split
        · rfl
        · simp only [decide_eq_true_eq]
          exact hip
    have hnot : ¬ (e + 600 < c) := by omega
    simp [hvalid, hnot, hle]
  · have hlt : e + 600 < c := by omega
    simp [hlt, hle]

/-- C2 witness: under the unary token library, the token issued to `bob`
with all clock readings of `GetToken` in second 5 validates at second
300. -/
theorem ValidateToken_GetToken_witness :
    GetToken unaryJWT "k" 5 5 "bob"
        = Except.ok (unaryToken "k" { Username := "bob", IssuedAt := 5, ExpiresAt := 605 }) ∧
      (5 : Int) ≤ 300 ∧ (300 : Int) ≤ 300 ∧
      ValidateToken unaryJWT "k" 300 300
          (unaryToken "k" { Username := "bob", IssuedAt := 5, ExpiresAt := 605 })
        = if (300 : Int) ≤ 5 + 600 then ("bob", true) else ("", false) :=
  ⟨rfl, by decide, by decide,
    ValidateToken_GetToken unaryJWT unaryJWT_RoundTrip "k" "bob" 5 5 300 300 _ rfl
      (by decide) (by decide)⟩

/-- C2 counterexample: the second changes between the two clock readings
of `GetToken`, 9 for the expiry and 10 for `IssuedAt`.  The token carries
`IssuedAt = 10` and `ExpiresAt = 609`; at second 610, which is within
`IssuedAt + 600`, it validates as `("", false)`. -/
theorem ValidateToken_expires_before_issued_plus_600 :
    GetToken unaryJWT "k" 9 10 "bob"
        = Except.ok (unaryToken "k" { Username := "bob", IssuedAt := 10, ExpiresAt := 609 }) ∧
      (610 : Int) ≤ 10 + 600 ∧
      ValidateToken unaryJWT "k" 610 610
          (unaryToken "k" { Username := "bob", IssuedAt := 10, ExpiresAt := 609 })
        = ("", false) := by
  refine ⟨rfl, by decide, ?_⟩
  rw [ValidateToken_verified unaryJWT "k" 610 610 _
    { Username := "bob", IssuedAt := 10, ExpiresAt := 609 }
    (unaryJWT_RoundTrip "k" _ _ rfl)]
  decide

end auth

/-! ## The authorization middleware -/

namespace pom

theorem AuthMiddleware_bad_header {σ ω : Type} (me : PomServer σ) (next : HandlerFunc ω)
    (res : http.ResponseWriter) (req : Request) (w : ω)
    (h : (strings.SplitSpace (http.Header.Get req.Header "Authorization")).length ≠ 2 ∨
      strings.ToLower ((strings.SplitSpace (http.Header.Get req.Header "Authorization")).getD 0 "")
        ≠ "bearer") :
    AuthMiddleware me next res req w =
      { res := http.Error res "Not authorized" 401, world := w, panicked := false } := by
  unfold AuthMiddleware
  by_cases hlen : (strings.SplitSpace (http.Header.Get req.Header "Authorization")).length ≠ 2
  · simp only [hlen, ne_eq, not_false_eq_true, if_true]
  · rcases h with h | h
    · exact absurd h hlen
    · simp only [hlen, if_false, h, ne_eq, not_false_eq_true, if_true]

theorem AuthMiddleware_bearer {σ ω : Type} (me : PomServer σ) (next : HandlerFunc ω)
    (res : http.ResponseWriter) (req : Request) (w : ω) (authType token : String)
    (hsplit : strings.SplitSpace (http.Header.Get req.Header "Authorization") = [authType, token])
    (hbearer : strings.ToLower authType = "bearer") :
    AuthMiddleware me next res req w =
      if (me.authProvider.ValidateToken token).2 = true then
        match Vars req with
        | none => { res := http.Error res "Internal error" 500, world := w, panicked := false }
        | some vars =>
          next res
            { req with vars := some (GoMap.set vars "username" (me.authProvider.ValidateToken token).1) }
            w
      else { res := http.Error res "Not authorized" 401, world := w, panicked := false } := by
  unfold AuthMiddleware
  generalize me.authProvider.ValidateToken = validate
  simp only [hsplit, List.length_cons, List.length_nil, List.getD_cons_zero, List.getD_cons_succ,
    hbearer, ne_eq, not_true_eq_false, if_false, Nat.reduceAdd]
  rcases validate token with ⟨username, valid⟩
  cases valid <;> simp

theorem list_length_two {α : Type} (l : List α) (h : l.length = 2) :
    ∃ a b, l = [a, b] := by
  match l, h with
  | [a, b], _ => exact ⟨a, b, rfl⟩

theorem AuthMiddleware_cases {σ ω : Type} (me : PomServer σ) (next : HandlerFunc ω)
    (res : http.ResponseWriter) (req : Request) (w : ω) :
    (AuthMiddleware me next res req w =
        { res := http.Error res "Not authorized" 401, world := w, panicked := false } ∧
      ∀ token, passesHeaderCheck req token → (me.authProvider.ValidateToken token).2 = false) ∨
    (AuthMiddleware me next res req w =
        { res := http.Error res "Internal error" 500, world := w, panicked := false } ∧
      Vars req = none) ∨
    (∃ token vars, passesHeaderCheck req token ∧
      (me.authProvider.ValidateToken token).2 = true ∧ Vars req = some vars ∧
      AuthMiddleware me next res req w =
        next res
          { req with vars := some (GoMap.set vars "username" (me.authProvider.ValidateToken token).1) }
          w) := by
  by_cases hbad :
      (strings.SplitSpace (http.Header.Get req.Header "Authorization")).length ≠ 2 ∨
      strings.ToLower ((strings.SplitSpace (http.Header.Get req.Header "Authorization")).getD 0 "")
        ≠ "bearer"
  · left
    refine ⟨AuthMiddleware_bad_header me next res req w hbad, ?_⟩
    rintro token ⟨authType, hsplit, hbearer⟩
    rcases hbad with h | h
    · simp [hsplit] at h
    · simp [hsplit, hbearer] at h
  · have hlen : (strings.SplitSpace (http.Header.Get req.Header "Authorization")).length = 2 := by
      by_contra hne
      exact hbad (Or.inl hne)
    obtain ⟨authType, token, hsplit⟩ := list_length_two _ hlen
    have hbearer : strings.ToLower authType = "bearer" := by
      by_contra hne
      exact hbad (Or.inr (by simpa [hsplit] using hne))
    have hrun := AuthMiddleware_bearer me next res req w authType token hsplit hbearer
    cases hvalid : (me.authProvider.ValidateToken token).2
    · left
      refine ⟨by simpa [hvalid] using hrun, ?_⟩
      rintro token2 ⟨authType2, hsplit2, _⟩
      have heq : token2 = token := by
        rw [hsplit] at hsplit2
        simp only [List.cons.injEq, and_true] at hsplit2
        exact hsplit2.2.symm
      rw [heq]
      exact hvalid
    · right
      cases hvars : Vars req with
      | none =>
        left
        refine ⟨?_, rfl⟩
        rw [hrun]
        simp [hvalid, hvars]
      | some vars =>
        right
        refine ⟨token, vars, ⟨authType, hsplit, hbearer⟩, hvalid, rfl, ?_⟩
        rw [hrun]
        simp [hvalid, hvars]

theorem passesHeaderCheck_unique (req : Request) (t1 t2 : String)
    (h1 : passesHeaderCheck req t1) (h2 : passesHeaderCheck req t2) : t1 = t2 := by
  obtain ⟨a1, hs1, _⟩ := h1
  obtain ⟨a2, hs2, _⟩ := h2
  rw [hs1] at hs2
  simp only [List.cons.injEq, and_true] at hs2
  exact hs2.2

/-- C3: `AuthMiddleware(next)` calls `next` exactly when the header check
passes, `ValidateToken` answers valid and the request carries a
route-variable map; the call is made once, on the request whose variable
`username` is the name returned by `ValidateToken`, and the middleware then
behaves as `next`; on a token that does not validate the response is 401
and `next` is not called. -/
theorem AuthMiddleware_calls_next_iff {σ ω : Type} (me : PomServer σ) (next : HandlerFunc ω)
    (res : http.ResponseWriter) (req : Request) (w : ω) (hw : res.wroteHeader = false) :
    ((AuthMiddleware me (recordCalls next) res req (w, [])).world.2 ≠ [] ↔
      ∃ token vars, passesHeaderCheck req token ∧
        (me.authProvider.ValidateToken token).2 = true ∧ Vars req = some vars) ∧
    (∀ token vars, passesHeaderCheck req token →
      (me.authProvider.ValidateToken token).2 = true → Vars req = some vars →
      (AuthMiddleware me (recordCalls next) res req (w, [])).world.2 =
        [{ req with
            vars := some (GoMap.set vars "username" (me.authProvider.ValidateToken token).1) }] ∧
      (∀ seen ∈ (AuthMiddleware me (recordCalls next) res req (w, [])).world.2,
        lookupVar (Vars seen) "username" = some (me.authProvider.ValidateToken token).1) ∧
      AuthMiddleware me next res req w =
        next res
          { req with
            vars := some (GoMap.set vars "username" (me.authProvider.ValidateToken token).1) }
          w) ∧
    (∀ token, passesHeaderCheck req token →
      (me.authProvider.ValidateToken token).2 = false →
      (AuthMiddleware me (recordCalls next) res req (w, [])).res.Code = 401 ∧
      (AuthMiddleware me (recordCalls next) res req (w, [])).world = (w, []) ∧
      AuthMiddleware me next res req w =
        { res := http.Error res "Not authorized" 401, world := w, panicked := false }) := by
  refine ⟨⟨?_, ?_⟩, ?_, ?_⟩
  · intro hcalls
    rcases AuthMiddleware_cases me (recordCalls next) res req (w, []) with
      ⟨hrun, _⟩ | ⟨hrun, _⟩ | ⟨token, vars, hpass, hvalid, hvars, _⟩
    · rw [hrun] at hcalls
      exact absurd rfl hcalls
    · rw [hrun] at hcalls
      exact absurd rfl hcalls
    · exact ⟨token, vars, hpass, hvalid, hvars⟩
  · rintro ⟨token, vars, hpass, hvalid, hvars⟩
    rcases AuthMiddleware_cases me (recordCalls next) res req (w, []) with
      ⟨_, hno⟩ | ⟨_, hnone⟩ | ⟨token2, vars2, _, _, _, hrun⟩
    · rw [hno token hpass] at hvalid
      cases hvalid
    · rw [hnone] at hvars
      cases hvars
    · rw [hrun]
      simp [recordCalls]
  · intro token vars hpass hvalid hvars
    have hrec : AuthMiddleware me (recordCalls next) res req (w, []) =
        recordCalls next res
          { req with
            vars := some (GoMap.set vars "username" (me.authProvider.ValidateToken token).1) }
          (w, []) := by
      rcases AuthMiddleware_cases me (recordCalls next) res req (w, []) with
        ⟨_, hno⟩ | ⟨_, hnone⟩ | ⟨token2, vars2, hpass2, _, hvars2, hrun⟩
      · rw [hno token hpass] at hvalid
        cases hvalid
      · rw [hnone] at hvars
        cases hvars
      · have ht : token2 = token := passesHeaderCheck_unique req _ _ hpass2 hpass
        have hvs : vars2 = vars := by
          rw [hvars] at hvars2
          cases hvars2
          rfl
        rw [hrun, ht, hvs]
    have hplain : AuthMiddleware me next res req w =
        next res
          { req with
            vars := some (GoMap.set vars "username" (me.authProvider.ValidateToken token).1) }
          w := by
      rcases AuthMiddleware_cases me next res req w with
        ⟨_, hno⟩ | ⟨_, hnone⟩ | ⟨token2, vars2, hpass2, _, hvars2, hrun⟩
      · rw [hno token hpass] at hvalid
        cases hvalid
      · rw [hnone] at hvars
        cases hvars
      · have ht : token2 = token := passesHeaderCheck_unique req _ _ hpass2 hpass
        have hvs : vars2 = vars := by
          rw [hvars] at hvars2
          cases hvars2
          rfl
        rw [hrun, ht, hvs]
    refine ⟨?_, ?_, hplain⟩
    · rw [hrec]
      simp [recordCalls]
    · rw [hrec]
      intro seen hseen
      simp only [recordCalls, List.nil_append, List.mem_singleton] at hseen
      rw [hseen]
      simp [Vars, lookupVar, GoMap.get_set_same]
  · intro token hpass hinvalid
    obtain ⟨authType, hsplit, hbearer⟩ := hpass
    have h1 := AuthMiddleware_bearer me (recordCalls next) res req (w, []) authType token
      hsplit hbearer
    have h2 := AuthMiddleware_bearer me next res req w authType token hsplit hbearer
    simp only [hinvalid, Bool.false_eq_true, if_false] at h1 h2
    refine ⟨?_, ?_, h2⟩
    · rw [h1]
      exact http.Error_Code _ _ _ hw
    · rw [h1]

/-- C3 witness: a request with `Bearer abc`, a provider that accepts every
token as `bob`, and an empty route-variable map: the wrapped handler is
called once, on the request whose variables hold `username = bob`. -/
theorem AuthMiddleware_calls_next_iff_witness :
    http.NewRecorder.wroteHeader = false ∧
    (AuthMiddleware
        (testServer { UserCheck := true, PassCheck := true, UserAllowed := false, Address := "" }
          (fixedProvider true true) 100)
        (recordCalls (okHandler : HandlerFunc Unit)) http.NewRecorder
        (requestWith "Bearer abc" (some GoMap.empty)) ((), [])).world.2 =
      [{ requestWith "Bearer abc" (some GoMap.empty) with
          vars := some (GoMap.set GoMap.empty "username" "bob") }] :=
  ⟨rfl,
    ((AuthMiddleware_calls_next_iff
      (testServer { UserCheck := true, PassCheck := true, UserAllowed := false, Address := "" }
        (fixedProvider true true) 100)
      (okHandler : HandlerFunc Unit) http.NewRecorder
      (requestWith "Bearer abc" (some GoMap.empty)) () rfl).2.1 "abc" GoMap.empty
      ⟨"Bearer", by decide, by decide⟩ rfl rfl).1⟩

end pom

namespace strings

theorem splitChars_ne_nil (sep : Char) (cs : List Char) : splitChars sep cs ≠ [] := by
  cases cs with
  | nil => simp [splitChars]
  | cons c cs =>
    unfold splitChars
    split
    · simp
    · split <;> simp

theorem splitChars_length (sep : Char) (cs : List Char) :
    (splitChars sep cs).length = cs.count sep + 1 := by
  induction cs with
  | nil => simp [splitChars]
  | cons c cs ih =>
    unfold splitChars
    by_cases hc : c = sep
    · subst hc
      simp [ih]
    · have hne : (c == sep) = false := by simpa using hc
      simp only [hc, if_false, List.count_cons, hne, Bool.false_eq_true, add_zero]
      split
      · next hnil => exact absurd hnil (splitChars_ne_nil sep cs)
      · next p ps hcons =>
        rw [hcons] at ih
        simpa using ih

theorem splitChars_head (sep : Char) (cs : List Char) :
    (splitChars sep cs).getD 0 [] = cs.takeWhile (fun c => c != sep) := by
  induction cs with
  | nil => simp [splitChars]
  | cons c cs ih =>
    unfold splitChars
    by_cases hc : c = sep
    · subst hc
      simp
    · simp only [hc, if_false]
      have hne : (c != sep) = true := by simpa using hc
      rw [List.takeWhile_cons, hne]
      split
      · next hnil => exact absurd hnil (splitChars_ne_nil sep cs)
      · next p ps hcons =>
        rw [hcons] at ih
        simp only [List.getD_cons_zero] at ih ⊢
        simp [ih]

theorem SplitSpace_length (s : String) : (SplitSpace s).length = s.data.count ' ' + 1 := by
  simp [SplitSpace, splitChars_length]

theorem SplitSpace_head (s : String) :
    (SplitSpace s).getD 0 "" = String.mk (s.data.takeWhile (fun c => c != ' ')) := by
  have h := splitChars_head ' ' s.data
  unfold SplitSpace
  cases hsp : splitChars ' ' s.data with
  | nil => exact absurd hsp (splitChars_ne_nil _ _)
  | cons p ps =>
    rw [hsp] at h
    simp only [List.getD_cons_zero] at h
    simp [h]

end strings

namespace pom

/-- C4 (amended): when the `Authorization` value does not contain exactly
one space character, or the part before the first space is not `bearer` in
any letter case, `AuthMiddleware` answers 401 with the body
`Not authorized`, does not call the wrapped handler, and the outcome is the
same for every auth provider. -/
theorem AuthMiddleware_rejects_header {σ ω : Type} (me : PomServer σ) (next : HandlerFunc ω)
    (res : http.ResponseWriter) (req : Request) (w : ω) (hw : res.wroteHeader = false)
    (hbad : (http.Header.Get req.Header "Authorization").data.count ' ' ≠ 1 ∨
      strings.ToLower (String.mk
        ((http.Header.Get req.Header "Authorization").data.takeWhile (fun c => c != ' ')))
        ≠ "bearer") :
    (AuthMiddleware me (recordCalls next) res req (w, [])).res.Code = 401 ∧
    (AuthMiddleware me (recordCalls next) res req (w, [])).world.2 = [] ∧
    (∀ provider : AuthProvider,
      AuthMiddleware { me with authProvider := provider } next res req w =
        { res := http.Error res "Not authorized" 401, world := w, panicked := false }) := by
  have hbad2 :
      (strings.SplitSpace (http.Header.Get req.Header "Authorization")).length ≠ 2 ∨
      strings.ToLower ((strings.SplitSpace (http.Header.Get req.Header "Authorization")).getD 0 "")
        ≠ "bearer" := by
    rcases hbad with h | h
    · left
      rw [strings.SplitSpace_length]
      omega
    · right
      rw [strings.SplitSpace_head]
      exact h
  refine ⟨?_, ?_, ?_⟩
  · rw [AuthMiddleware_bad_header me (recordCalls next) res req (w, []) hbad2]
    exact http.Error_Code _ _ _ hw
  · rw [AuthMiddleware_bad_header me (recordCalls next) res req (w, []) hbad2]
  · intro provider
    exact AuthMiddleware_bad_header _ next res req w hbad2

/-- C4 witness: the value `Bearer a b` has two spaces and is answered 401
without a call of the wrapped handler, although the provider accepts every
token. -/
theorem AuthMiddleware_rejects_header_witness :
    http.NewRecorder.wroteHeader = false ∧
    (AuthMiddleware
        (testServer { UserCheck := true, PassCheck := true, UserAllowed := false, Address := "" }
          (fixedProvider true true) 100)
        (recordCalls (okHandler : HandlerFunc Unit)) http.NewRecorder
        (requestWith "Bearer a b" (some GoMap.empty)) ((), [])).res.Code = 401 ∧
    (AuthMiddleware
        (testServer { UserCheck := true, PassCheck := true, UserAllowed := false, Address := "" }
          (fixedProvider true true) 100)
        (recordCalls (okHandler : HandlerFunc Unit)) http.NewRecorder
        (requestWith "Bearer a b" (some GoMap.empty)) ((), [])).world.2 = [] :=
  have h := AuthMiddleware_rejects_header
    (testServer { UserCheck := true, PassCheck := true, UserAllowed := false, Address := "" }
      (fixedProvider true true) 100)
    (okHandler : HandlerFunc Unit) http.NewRecorder
    (requestWith "Bearer a b" (some GoMap.empty)) () rfl (Or.inl (by decide))
  ⟨rfl, h.1, h.2.1⟩

/-- C4 counterexample: the values `Bearer ` (one field) and `Bearer a\tb`
(three fields) are not of the form `Bearer <token>` with exactly two
white-space-separated fields, yet with a provider that accepts every token
the wrapped handler is called and the status is 200, not 401. -/
theorem AuthMiddleware_one_space_reaches_provider :
    specBearerForm "Bearer " = false ∧
    (AuthMiddleware
        (testServer { UserCheck := true, PassCheck := true, UserAllowed := false, Address := "" }
          (fixedProvider true true) 100)
        (recordCalls (okHandler : HandlerFunc Unit)) http.NewRecorder
        (requestWith "Bearer " (some GoMap.empty)) ((), [])).world.2.length = 1 ∧
    (AuthMiddleware
        (testServer { UserCheck := true, PassCheck := true, UserAllowed := false, Address := "" }
          (fixedProvider true true) 100)
        (recordCalls (okHandler : HandlerFunc Unit)) http.NewRecorder
        (requestWith "Bearer " (some GoMap.empty)) ((), [])).res.Code = 200 ∧
    specBearerForm "Bearer a\tb" = false ∧
    (AuthMiddleware
        (testServer { UserCheck := true, PassCheck := true, UserAllowed := false, Address := "" }
          (fixedProvider true true) 100)
        (recordCalls (okHandler : HandlerFunc Unit)) http.NewRecorder
        (requestWith "Bearer a\tb" (some GoMap.empty)) ((), [])).world.2.length = 1 ∧
    (AuthMiddleware
        (testServer { UserCheck := true, PassCheck := true, UserAllowed := false, Address := "" }
          (fixedProvider true true) 100)
        (recordCalls (okHandler : HandlerFunc Unit)) http.NewRecorder
        (requestWith "Bearer a\tb" (some GoMap.empty)) ((), [])).res.Code = 200 := by
  refine ⟨by decide, by decide, by decide, by decide, by decide, by decide⟩

end pom

/-! ## The stats endpoint -/

namespace pom

/-- C5 (amended): for a request with path parameter `user` and context
variable `username` on a fresh response writer: when they differ the
response is 403 with the body `Forbidden`, the same for every stats
collaborator and stats state; when they are equal the status is 200 and the
body is `GetStats(user)`; the handler sets no content type itself, so the
`Content-Type` of the response is the one the response writer detects from
the body, `http.DetectContentType(body)`, which is never
`application/json`. -/
theorem HandleStatsRequest_response {σ : Type} (me : PomServer σ) (res : http.ResponseWriter)
    (req : Request) (st : State σ) (vars : GoMap String) (username user : String)
    (hw : res.wroteHeader = false) (hb : res.Body = "")
    (htype : GoMap.get res.header "Content-Type" = none)
    (hte : http.Header.Get res.header "Transfer-Encoding" = "")
    (hvars : Vars req = some vars) (hname : GoMap.get vars "username" = some username)
    (huser : GoMap.get vars "user" = some user) :
    (user ≠ username →
      (HandleStatsRequest me res req st).res.Code = 403 ∧
      (HandleStatsRequest me res req st).res.Body = "Forbidden\n" ∧
      (HandleStatsRequest me res req st).world = st ∧
      ∀ (τ : Type) (other : PomServer τ) (st2 : State τ),
        (HandleStatsRequest other res req st2).res = (HandleStatsRequest me res req st).res) ∧
    (user = username →
      (HandleStatsRequest me res req st).res.Code = 200 ∧
      (HandleStatsRequest me res req st).res.wroteHeader = true ∧
      (HandleStatsRequest me res req st).res.Body = me.userStats.GetStats st.userStats user ∧
      (HandleStatsRequest me res req st).res.header =
        http.Header.Set res.header "Content-Type"
          (http.DetectContentType (http.bytesOf (me.userStats.GetStats st.userStats user))) ∧
      http.Header.Get (HandleStatsRequest me res req st).res.header "Content-Type" =
        http.DetectContentType (http.bytesOf (me.userStats.GetStats st.userStats user)) ∧
      http.Header.Get (HandleStatsRequest me res req st).res.header "Content-Type"
        ≠ "application/json" ∧
      (HandleStatsRequest me res req st).world = st ∧
      (HandleStatsRequest me res req st).panicked = false) := by
  have hn : lookupVar (Vars req) "username" = some username := by
    simp [lookupVar, hvars, hname]
  have hu : lookupVar (Vars req) "user" = some user := by
    simp [lookupVar, hvars, huser]
  constructor
  · intro hne
    have hne2 : username ≠ user := fun h => hne h.symm
    have hrun : ∀ (τ : Type) (other : PomServer τ) (st2 : State τ),
        HandleStatsRequest other res req st2 =
          { res := http.Error res "Forbidden" 403, world := st2, panicked := false } := by
      intro τ other st2
      simp only [HandleStatsRequest, hn, hu, hne2, ne_eq, not_false_eq_true, if_true]
    refine ⟨?_, ?_, ?_, ?_⟩
    · rw [hrun]
      exact http.Error_Code _ _ _ hw
    · rw [hrun, http.Error_Body, hb]
      rfl
    · rw [hrun]
    · intro τ other st2
      rw [hrun, hrun]
  · intro heq
    have hrun : HandleStatsRequest me res req st =
        { res := res.Write (me.userStats.GetStats st.userStats user), world := st,
          panicked := false } := by
      simp only [HandleStatsRequest, hn, hu, heq, ne_eq, not_true_eq_false, if_false]
    have hheader := http.Write_header_sniffed res (me.userStats.GetStats st.userStats user)
      hw htype hte
    rw [hrun]
    refine ⟨http.Write_Code _ _ hw, http.Write_wroteHeader _ _, ?_, hheader, ?_, ?_, rfl, rfl⟩
    · rw [http.Write_Body, hb]
      simp
    · simp only [hheader]
      exact http.Header.Get_Set_same _ _ _
    · simp only [hheader]
      rw [http.Header.Get_Set_same]
      exact http.DetectContentType_ne_json _

/-- C5 witness: `bob` asking for the stats of `bob` on a fresh keeper gets
200 and the JSON form of the zero record. -/
theorem HandleStatsRequest_response_witness :
    (HandleStatsRequest
        (testServer { UserCheck := true, PassCheck := true, UserAllowed := false, Address := "" }
          (fixedProvider true true) 100)
        http.NewRecorder
        (requestWith "Bearer abc" (some (GoMap.set (GoMap.set GoMap.empty "user" "bob") "username" "bob")))
        { userStats := stats.NewKeeper ["bob"], proxies := GoMap.empty }).res.Code = 200 ∧
    (HandleStatsRequest
        (testServer { UserCheck := true, PassCheck := true, UserAllowed := false, Address := "" }
          (fixedProvider true true) 100)
        http.NewRecorder
        (requestWith "Bearer abc" (some (GoMap.set (GoMap.set GoMap.empty "user" "bob") "username" "bob")))
        { userStats := stats.NewKeeper ["bob"], proxies := GoMap.empty }).res.Body
      = stats.Keeper.GetStats (stats.NewKeeper ["bob"]) "bob" :=
  have h := (HandleStatsRequest_response
    (testServer { UserCheck := true, PassCheck := true, UserAllowed := false, Address := "" }
      (fixedProvider true true) 100)
    http.NewRecorder
    (requestWith "Bearer abc" (some (GoMap.set (GoMap.set GoMap.empty "user" "bob") "username" "bob")))
    { userStats := stats.NewKeeper ["bob"], proxies := GoMap.empty }
    (GoMap.set (GoMap.set GoMap.empty "user" "bob") "username" "bob") "bob" "bob"
    rfl rfl rfl (by decide) rfl (by decide) (by decide)).2 rfl
  ⟨h.1, h.2.2.1⟩

set_option maxRecDepth 100000 in
/-- C5 counterexample: `bob` asks for the stats of `bob` on a fresh
recorder; the response is 200 with the stats body and its `Content-Type`
is the detected `text/plain; charset=utf-8`, not a JSON type. -/
theorem HandleStatsRequest_content_type_not_json :
    (HandleStatsRequest
        (testServer { UserCheck := true, PassCheck := true, UserAllowed := false, Address := "" }
          (fixedProvider true true) 100)
        http.NewRecorder
        (requestWith "Bearer abc" (some (GoMap.set (GoMap.set GoMap.empty "user" "bob") "username" "bob")))
        { userStats := stats.NewKeeper ["bob"], proxies := GoMap.empty }).res.Code = 200 ∧
    http.Header.Get (HandleStatsRequest
        (testServer { UserCheck := true, PassCheck := true, UserAllowed := false, Address := "" }
          (fixedProvider true true) 100)
        http.NewRecorder
        (requestWith "Bearer abc" (some (GoMap.set (GoMap.set GoMap.empty "user" "bob") "username" "bob")))
        { userStats := stats.NewKeeper ["bob"], proxies := GoMap.empty }).res.header
      "Content-Type" = "text/plain; charset=utf-8" ∧
    http.Header.Get (HandleStatsRequest
        (testServer { UserCheck := true, PassCheck := true, UserAllowed := false, Address := "" }
          (fixedProvider true true) 100)
        http.NewRecorder
        (requestWith "Bearer abc" (some (GoMap.set (GoMap.set GoMap.empty "user" "bob") "username" "bob")))
        { userStats := stats.NewKeeper ["bob"], proxies := GoMap.empty }).res.header
      "Content-Type" ≠ "application/json" := by
  refine ⟨by decide, by decide, by decide⟩

end pom

/-! ## The proxy endpoint and the parsed configuration -/

namespace config

theorem foldl_routes_absent (routes : List Route) (target : String)
    (m : GoMap String × GoMap (List String))
    (hunknown : ∀ r ∈ routes, r.Name ≠ target)
    (h1 : GoMap.get m.1 target = none) (h2 : GoMap.get m.2 target = none) :
    GoMap.get (routes.foldl
        (fun (m : GoMap String × GoMap (List String)) route =>
          (GoMap.set m.1 route.Name route.Destination,
            GoMap.set m.2 route.Name route.AllowedUsers)) m).1 target = none ∧
    GoMap.get (routes.foldl
        (fun (m : GoMap String × GoMap (List String)) route =>
          (GoMap.set m.1 route.Name route.Destination,
            GoMap.set m.2 route.Name route.AllowedUsers)) m).2 target = none := by
  induction routes generalizing m with
  | nil => exact ⟨h1, h2⟩
  | cons r rs ih =>
    have hr : target ≠ r.Name := fun h => hunknown r (List.mem_cons_self _ _) h.symm
    simp only [List.foldl_cons]
    apply ih
    · intro r2 hr2
      exact hunknown r2 (List.mem_cons_of_mem _ hr2)
    · rw [GoMap.get_set_other _ _ _ _ hr]
      exact h1
    · rw [GoMap.get_set_other _ _ _ _ hr]
      exact h2

theorem GetAddress_unknown (key : String) (users : List User) (routes : List Route)
    (target : String) (hunknown : ∀ r ∈ routes, r.Name ≠ target) :
    (ParseConfig key users routes).GetAddress target = ("", false) := by
  have h := (foldl_routes_absent routes target (GoMap.empty, GoMap.empty) hunknown rfl rfl).1
  simp only [PomConfig.GetAddress, ParseConfig, h]

theorem IsUserAllowed_unknown (key : String) (users : List User) (routes : List Route)
    (target username : String) (hunknown : ∀ r ∈ routes, r.Name ≠ target) :
    (ParseConfig key users routes).IsUserAllowed target username = false := by
  have h := (foldl_routes_absent routes target (GoMap.empty, GoMap.empty) hunknown rfl rfl).2
  simp only [PomConfig.IsUserAllowed, ParseConfig, h]

end config

namespace pom

/-- C6 (amended): with the route store built by `ParseConfig`, a target
that no configured route is named after has no address (`GetAddress`
answers not found) and no allow-list, so `IsUserAllowed` is false and
`HandleProxyRequest` answers 403 with the body `Forbidden` for every
username, before the address lookup is reached. -/
theorem HandleProxyRequest_unknown_route {σ : Type} (net : Net) (me : PomServer σ)
    (key : String) (users : List config.User) (routes : List config.Route)
    (res : http.ResponseWriter) (req : Request) (st : State σ) (vars : GoMap String)
    (username target : String)
    (hw : res.wroteHeader = false) (hb : res.Body = "")
    (hvars : Vars req = some vars) (hname : GoMap.get vars "username" = some username)
    (htarget : GoMap.get vars "target" = some target)
    (hunknown : ∀ r ∈ routes, r.Name ≠ target) :
    (config.ParseConfig key users routes).GetAddress target = ("", false) ∧
    (HandleProxyRequest net
      { me with routeStore := configRoutes (config.ParseConfig key users routes) }
      res req st).res.Code = 403 ∧
    (HandleProxyRequest net
      { me with routeStore := configRoutes (config.ParseConfig key users routes) }
      res req st).res.Body = "Forbidden\n" ∧
    (HandleProxyRequest net
      { me with routeStore := configRoutes (config.ParseConfig key users routes) }
      res req st).world = st := by
  have hn : lookupVar (Vars req) "username" = some username := by
    simp [lookupVar, hvars, hname]
  have ht : lookupVar (Vars req) "target" = some target := by
    simp [lookupVar, hvars, htarget]
  have hallowed := config.IsUserAllowed_unknown key users routes target username hunknown
  have hrun : HandleProxyRequest net
      { me with routeStore := configRoutes (config.ParseConfig key users routes) } res req st =
        { res := http.Error res "Forbidden" 403, world := st, panicked := false } := by
    simp only [HandleProxyRequest, hn, ht, configRoutes, hallowed, Bool.not_false, if_true]
  refine ⟨config.GetAddress_unknown key users routes target hunknown, ?_, ?_, ?_⟩
  · rw [hrun]
    exact http.Error_Code _ _ _ hw
  · rw [hrun, http.Error_Body, hb]
    rfl
  · rw [hrun]

/-- C6 witness: the configuration has the single route `db`; `bob` asks
for the target `nope` and gets 403. -/
theorem HandleProxyRequest_unknown_route_witness :
    (HandleProxyRequest testNet
      (routedServer (config.ParseConfig "k" [{ Username := "bob", PassHash := "h" }]
        [{ Name := "db", Destination := "http://db", AllowedUsers := ["bob"] }]))
      http.NewRecorder
      (requestWith "Bearer abc"
        (some (GoMap.set (GoMap.set GoMap.empty "target" "nope") "username" "bob")))
      { userStats := stats.NewKeeper ["bob"], proxies := GoMap.empty }).res.Code = 403 :=
  (HandleProxyRequest_unknown_route testNet
    (routedServer (config.ParseConfig "k" [] []))
    "k" [{ Username := "bob", PassHash := "h" }]
    [{ Name := "db", Destination := "http://db", AllowedUsers := ["bob"] }]
    http.NewRecorder
    (requestWith "Bearer abc"
      (some (GoMap.set (GoMap.set GoMap.empty "target" "nope") "username" "bob")))
    { userStats := stats.NewKeeper ["bob"], proxies := GoMap.empty }
    (GoMap.set (GoMap.set GoMap.empty "target" "nope") "username" "bob") "bob" "nope"
    rfl rfl rfl (by decide) (by decide) (by decide)).2.1

/-- C6 counterexample: the parsed configuration has the single route `db`,
so the target `nope` is unknown and `GetAddress` answers not found; the
request of `bob` for `nope` is answered 403, not 404. -/
theorem HandleProxyRequest_unknown_route_is_403 :
    ((config.ParseConfig "k" [{ Username := "bob", PassHash := "h" }]
        [{ Name := "db", Destination := "http://db", AllowedUsers := ["bob"] }]).GetAddress
      "nope").2 = false ∧
    (HandleProxyRequest testNet
      (routedServer (config.ParseConfig "k" [{ Username := "bob", PassHash := "h" }]
        [{ Name := "db", Destination := "http://db", AllowedUsers := ["bob"] }]))
      http.NewRecorder
      (requestWith "Bearer abc"
        (some (GoMap.set (GoMap.set GoMap.empty "target" "nope") "username" "bob")))
      { userStats := stats.NewKeeper ["bob"], proxies := GoMap.empty }).res.Code = 403 ∧
    (HandleProxyRequest testNet
      (routedServer (config.ParseConfig "k" [{ Username := "bob", PassHash := "h" }]
        [{ Name := "db", Destination := "http://db", AllowedUsers := ["bob"] }]))
      http.NewRecorder
      (requestWith "Bearer abc"
        (some (GoMap.set (GoMap.set GoMap.empty "target" "nope") "username" "bob")))
      { userStats := stats.NewKeeper ["bob"], proxies := GoMap.empty }).res.Code ≠ 404 := by
  refine ⟨by decide, by decide, by decide⟩

end pom

/-! ## Stats effects of session creation -/

namespace stats

theorem wrapInt64_of_range (x : Int) (hlo : -2 ^ 63 ≤ x) (hhi : x < 2 ^ 63) :
    wrapInt64 x = x := by
  unfold wrapInt64
  have h : (x + 2 ^ 63) % 2 ^ 64 = x + 2 ^ 63 := by
    apply Int.emod_eq_of_lt
    · linarith
    · have : (2 : Int) ^ 64 = 2 ^ 63 + 2 ^ 63 := by norm_num
      linarith
  rw [h]
  ring

theorem IncrementAuthorizedAttempt_some (now : Int) (me : Keeper) (username : String)
    (record : UserStats) (hrec : GoMap.get me.UserStats username = some record) :
    me.IncrementAuthorizedAttempt now username =
      some (Keeper.mk (GoMap.set me.UserStats username
        { record with LastSuccessful := now,
                      SuccessCounter := wrapInt64 (record.SuccessCounter + 1) })) := by
  simp only [Keeper.IncrementAuthorizedAttempt, hrec]

theorem IncrementUnauthorizedAttempt_some (now : Int) (me : Keeper) (username : String)
    (record : UserStats) (hrec : GoMap.get me.UserStats username = some record) :
    me.IncrementUnauthorizedAttempt now username =
      some (Keeper.mk (GoMap.set me.UserStats username
        { record with LastUnsuccessful := now,
                      UnsuccessCounter := wrapInt64 (record.UnsuccessCounter + 1) })) := by
  simp only [Keeper.IncrementUnauthorizedAttempt, hrec]

theorem IncrementAuthorizedAttempt_none (now : Int) (me : Keeper) (username : String)
    (hrec : GoMap.get me.UserStats username = none) :
    me.IncrementAuthorizedAttempt now username = none := by
  simp only [Keeper.IncrementAuthorizedAttempt, hrec]

theorem IncrementUnauthorizedAttempt_none (now : Int) (me : Keeper) (username : String)
    (hrec : GoMap.get me.UserStats username = none) :
    me.IncrementUnauthorizedAttempt now username = none := by
  simp only [Keeper.IncrementUnauthorizedAttempt, hrec]

end stats

namespace pom

/-- C7 (amended): for a call of `HandleSessionCreate` over a `stats.Keeper`:
without Basic credentials or with a username unknown to the credential
store the keeper is unchanged; with a known username that has a record,
the call completes, other users' records are unchanged, and on a bad
password the user's `UnsuccessCounter` goes up by exactly 1 (and
`LastUnsuccessful` becomes the current time) with the success fields
unchanged, on a good password with a token issued the `SuccessCounter`
goes up by exactly 1 (and `LastSuccessful` becomes the current time) with
the unsuccess fields unchanged, and on a good password with a token error
the keeper is unchanged; the counter that goes up is an `int64` below its
maximum. -/
theorem HandleSessionCreate_stats_effect (net : Net) (users : UserStore) (routes : RouteStore)
    (provider : AuthProvider) (now : Int) (res : http.ResponseWriter) (req : Request)
    (st : State stats.Keeper) :
    (net.BasicAuth req = none →
      (HandleSessionCreate net (NewServer users routes (keeperStats now) provider)
        res req st).world = st ∧
      (HandleSessionCreate net (NewServer users routes (keeperStats now) provider)
        res req st).panicked = false) ∧
    (∀ username password, net.BasicAuth req = some (username, password) →
      users.CheckUsername username = false →
      (HandleSessionCreate net (NewServer users routes (keeperStats now) provider)
        res req st).world = st ∧
      (HandleSessionCreate net (NewServer users routes (keeperStats now) provider)
        res req st).panicked = false) ∧
    (∀ username password record, net.BasicAuth req = some (username, password) →
      users.CheckUsername username = true →
      GoMap.get st.userStats.UserStats username = some record →
      (HandleSessionCreate net (NewServer users routes (keeperStats now) provider)
        res req st).panicked = false ∧
      (∀ other, other ≠ username →
        GoMap.get (HandleSessionCreate net (NewServer users routes (keeperStats now) provider)
          res req st).world.userStats.UserStats other = GoMap.get st.userStats.UserStats other) ∧
      (users.CheckPassword username password = false →
        -2 ^ 63 ≤ record.UnsuccessCounter → record.UnsuccessCounter < 2 ^ 63 - 1 →
        GoMap.get (HandleSessionCreate net (NewServer users routes (keeperStats now) provider)
          res req st).world.userStats.UserStats username =
          some { record with LastUnsuccessful := now,
                             UnsuccessCounter := record.UnsuccessCounter + 1 }) ∧
      (users.CheckPassword username password = true →
        ∀ t, provider.GetToken username = Except.ok t →
        -2 ^ 63 ≤ record.SuccessCounter → record.SuccessCounter < 2 ^ 63 - 1 →
        GoMap.get (HandleSessionCreate net (NewServer users routes (keeperStats now) provider)
          res req st).world.userStats.UserStats username =
          some { record with LastSuccessful := now,
                             SuccessCounter := record.SuccessCounter + 1 }) ∧
      (users.CheckPassword username password = true →
        ∀ err, provider.GetToken username = Except.error err →
        (HandleSessionCreate net (NewServer users routes (keeperStats now) provider)
          res req st).world = st)) := by
  refine ⟨?_, ?_, ?_⟩
  · intro hnone
    simp only [HandleSessionCreate, hnone, and_self]
  · intro username password hsome hu
    simp only [HandleSessionCreate, hsome, NewServer, hu, Bool.not_false, if_true, and_self]
  · intro username password record hsome hu hrec
    have hU := stats.IncrementUnauthorizedAttempt_some now st.userStats username record hrec
    have hA := stats.IncrementAuthorizedAttempt_some now st.userStats username record hrec
    cases hp : users.CheckPassword username password
    · have hrun : HandleSessionCreate net (NewServer users routes (keeperStats now) provider)
          res req st =
          { res := http.Error res "Forbidden" 403,
            world := { st with userStats := stats.Keeper.mk (GoMap.set st.userStats.UserStats username
              { record with LastUnsuccessful := now,
                            UnsuccessCounter :=
                              stats.wrapInt64 (record.UnsuccessCounter + 1) }) },
            panicked := false } := by
        simp only [HandleSessionCreate, hsome, NewServer, hu, hp, keeperStats, hU,
          Bool.not_true, Bool.not_false, Bool.false_eq_true, if_false, if_true]
      rw [hrun]
      refine ⟨rfl, ?_, ?_, ?_, ?_⟩
      · intro other hother
        exact GoMap.get_set_other _ _ _ _ hother
      · intro _ hlo hhi
        rw [stats.wrapInt64_of_range _ (by linarith) (by linarith)]
        exact GoMap.get_set_same _ _ _
      · intro h
        cases h
      · intro h
        cases h
    · cases ht : provider.GetToken username with
      | error err =>
        have hrun : HandleSessionCreate net (NewServer users routes (keeperStats now) provider)
            res req st =
            { res := http.Error res "Internal err" 500, world := st, panicked := false } := by
          simp only [HandleSessionCreate, hsome, NewServer, hu, hp, ht,
            Bool.not_true, Bool.false_eq_true, if_false]
        rw [hrun]
        refine ⟨rfl, fun _ _ => rfl, ?_, ?_, ?_⟩
        · intro h
          cases h
        · intro _ t h
          cases h
        · intro _ _ _
          rfl
      | ok token =>
        have hrun : HandleSessionCreate net (NewServer users routes (keeperStats now) provider)
            res req st =
            { res := res.Write ("\x7b\"token\":\"" ++ token ++ "\"\x7d"),
              world := { st with userStats := stats.Keeper.mk (GoMap.set st.userStats.UserStats username
                { record with LastSuccessful := now,
                              SuccessCounter :=
                                stats.wrapInt64 (record.SuccessCounter + 1) }) },
              panicked := false } := by
          simp only [HandleSessionCreate, hsome, NewServer, hu, hp, ht, keeperStats, hA,
            Bool.not_true, Bool.false_eq_true, if_false]
        rw [hrun]
        refine ⟨rfl, ?_, ?_, ?_, ?_⟩
        · intro other hother
          exact GoMap.get_set_other _ _ _ _ hother
        · intro h
          cases h
        · intro _ t _ hlo hhi
          rw [stats.wrapInt64_of_range _ (by linarith) (by linarith)]
          exact GoMap.get_set_same _ _ _
        · intro _ err h
          cases h

/-- C7 witness: `bob` has a fresh record and sends a wrong password; his
`UnsuccessCounter` becomes 1 and his `SuccessCounter` stays 0. -/
theorem HandleSessionCreate_stats_effect_witness :
    GoMap.get (HandleSessionCreate testNet
        (NewServer
          (mockUserStore { UserCheck := true, PassCheck := false, UserAllowed := false, Address := "" })
          (mockRouteStore { UserCheck := true, PassCheck := false, UserAllowed := false, Address := "" })
          (keeperStats 100) (fixedProvider true true))
        http.NewRecorder (requestWith "Basic bob:pw" none)
        (NewState (stats.NewKeeper ["bob"]))).world.userStats.UserStats "bob" =
      some { LastSuccessful := 0, SuccessCounter := 0, LastUnsuccessful := 100,
             UnsuccessCounter := 0 + 1 } :=
  ((HandleSessionCreate_stats_effect testNet
      (mockUserStore { UserCheck := true, PassCheck := false, UserAllowed := false, Address := "" })
      (mockRouteStore { UserCheck := true, PassCheck := false, UserAllowed := false, Address := "" })
      (fixedProvider true true) 100 http.NewRecorder (requestWith "Basic bob:pw" none)
      (NewState (stats.NewKeeper ["bob"]))).2.2 "bob" "pw" stats.UserStats.zero
      (by decide) rfl (by decide)).2.2.1 rfl (by decide) (by decide)

/-- C7 counterexample: `bob` is known to the credential store, has a
record, and sends the right password, but the provider fails to issue a
token: the call completes with 500 and his record is as before, so neither
counter went up.  Also, a successful login on a record whose
`SuccessCounter` is the largest `int64` wraps the counter to the smallest
one. -/
theorem HandleSessionCreate_token_error_no_stats :
    (mockUserStore { UserCheck := true, PassCheck := true, UserAllowed := false, Address := "" }).CheckUsername
      "bob" = true ∧
    GoMap.get (stats.NewKeeper ["bob"]).UserStats "bob" = some stats.UserStats.zero ∧
    (HandleSessionCreate testNet
        (NewServer
          (mockUserStore { UserCheck := true, PassCheck := true, UserAllowed := false, Address := "" })
          (mockRouteStore { UserCheck := true, PassCheck := true, UserAllowed := false, Address := "" })
          (keeperStats 100) (fixedProvider false true))
        http.NewRecorder (requestWith "Basic bob:pw" none)
        (NewState (stats.NewKeeper ["bob"]))).panicked = false ∧
    (HandleSessionCreate testNet
        (NewServer
          (mockUserStore { UserCheck := true, PassCheck := true, UserAllowed := false, Address := "" })
          (mockRouteStore { UserCheck := true, PassCheck := true, UserAllowed := false, Address := "" })
          (keeperStats 100) (fixedProvider false true))
        http.NewRecorder (requestWith "Basic bob:pw" none)
        (NewState (stats.NewKeeper ["bob"]))).res.Code = 500 ∧
    GoMap.get (HandleSessionCreate testNet
        (NewServer
          (mockUserStore { UserCheck := true, PassCheck := true, UserAllowed := false, Address := "" })
          (mockRouteStore { UserCheck := true, PassCheck := true, UserAllowed := false, Address := "" })
          (keeperStats 100) (fixedProvider false true))
        http.NewRecorder (requestWith "Basic bob:pw" none)
        (NewState (stats.NewKeeper ["bob"]))).world.userStats.UserStats "bob"
      = some stats.UserStats.zero ∧
    GoMap.get (HandleSessionCreate testNet
        (NewServer
          (mockUserStore { UserCheck := true, PassCheck := true, UserAllowed := false, Address := "" })
          (mockRouteStore { UserCheck := true, PassCheck := true, UserAllowed := false, Address := "" })
          (keeperStats 100) (fixedProvider true true))
        http.NewRecorder (requestWith "Basic bob:pw" none)
        (NewState (stats.Keeper.mk (GoMap.set GoMap.empty "bob"
          { LastSuccessful := 0, SuccessCounter := 9223372036854775807,
            LastUnsuccessful := 0, UnsuccessCounter := 0 })))).world.userStats.UserStats "bob"
      = some { LastSuccessful := 100, SuccessCounter := -9223372036854775808,
               LastUnsuccessful := 0, UnsuccessCounter := 0 } := by
  refine ⟨by decide, by decide, by decide, by decide, by decide, by decide⟩

end pom

/-! ## Increments for a username without a record -/

namespace stats

theorem NewKeeper_foldl_absent (names : List String) (username : String) (k : Keeper)
    (habsent : username ∉ names) (hk : GoMap.get k.UserStats username = none) :
    GoMap.get (names.foldl
      (fun k name => { UserStats := GoMap.set k.UserStats name UserStats.zero }) k).UserStats
      username = none := by
  induction names generalizing k with
  | nil => exact hk
  | cons n ns ih =>
    simp only [List.foldl_cons]
    apply ih
    · exact fun h => habsent (List.mem_cons_of_mem _ h)
    · have hne : username ≠ n := fun h => habsent (h ▸ List.mem_cons_self _ _)
      rw [GoMap.get_set_other _ _ _ _ hne]
      exact hk

theorem NewKeeper_absent (names : List String) (username : String)
    (habsent : username ∉ names) :
    GoMap.get (NewKeeper names).UserStats username = none :=
  NewKeeper_foldl_absent names username _ habsent rfl

theorem Increment_absent_panics (names : List String) (username : String) (now : Int)
    (habsent : username ∉ names) :
    (NewKeeper names).IncrementAuthorizedAttempt now username = none ∧
    (NewKeeper names).IncrementUnauthorizedAttempt now username = none :=
  ⟨IncrementAuthorizedAttempt_none _ _ _ (NewKeeper_absent names username habsent),
    IncrementUnauthorizedAttempt_none _ _ _ (NewKeeper_absent names username habsent)⟩

/-- C8 (the code at the failing input): on `NewKeeper(["bob"])` the map has
no record for `eve`, and both increments for `eve` end in the nil-pointer
panic instead of returning. -/
theorem Increment_eve_panics :
    GoMap.get (NewKeeper ["bob"]).UserStats "eve" = none ∧
    (NewKeeper ["bob"]).IncrementAuthorizedAttempt 100 "eve" = none ∧
    (NewKeeper ["bob"]).IncrementUnauthorizedAttempt 100 "eve" = none :=
  ⟨by decide, IncrementAuthorizedAttempt_none _ _ _ (by decide),
    IncrementUnauthorizedAttempt_none _ _ _ (by decide)⟩

end stats

/-! ## The proxy cache and the request rewrite -/

namespace pom

/-- C9: `getReverseProxy(u)` is get-or-create under the key `u.String()`:
on a hit it returns the stored handle and the cache is unchanged; on a miss
it returns a new handle bound to `u` and stores it under the key; every
other key keeps its entry; afterwards the key holds exactly the returned
handle, and a second call with `u` returns the same handle and leaves the
cache as the first call left it. -/
theorem getReverseProxy_get_or_create (net : Net) (proxies : GoMap ReverseProxy)
    (u : url.URL) :
    (∀ proxy, GoMap.get proxies (net.URLString u) = some proxy →
      getReverseProxy net proxies u = (proxy, proxies)) ∧
    (GoMap.get proxies (net.URLString u) = none →
      (getReverseProxy net proxies u).1 = NewSingleHostReverseProxy u ∧
      (getReverseProxy net proxies u).1.target = u ∧
      (getReverseProxy net proxies u).2 =
        GoMap.set proxies (net.URLString u) (NewSingleHostReverseProxy u)) ∧
    (∀ k, k ≠ net.URLString u →
      GoMap.get (getReverseProxy net proxies u).2 k = GoMap.get proxies k) ∧
    GoMap.get (getReverseProxy net proxies u).2 (net.URLString u)
      = some (getReverseProxy net proxies u).1 ∧
    getReverseProxy net (getReverseProxy net proxies u).2 u
      = ((getReverseProxy net proxies u).1, (getReverseProxy net proxies u).2) := by
  cases hget : GoMap.get proxies (net.URLString u) with
  | some proxy =>
    have hrun : getReverseProxy net proxies u = (proxy, proxies) := by
      simp only [getReverseProxy, hget]
    refine ⟨?_, ?_, ?_, ?_, ?_⟩
    · intro p hp
      cases hp
      exact hrun
    · intro h
      cases h
    · intro k _
      rw [hrun]
    · rw [hrun]
      exact hget
    · rw [hrun]
      exact hrun
  | none =>
    have hrun : getReverseProxy net proxies u =
        (NewSingleHostReverseProxy u,
          GoMap.set proxies (net.URLString u) (NewSingleHostReverseProxy u)) := by
      simp only [getReverseProxy, hget]
    refine ⟨?_, ?_, ?_, ?_, ?_⟩
    · intro p hp
      cases hp
    · intro _
      rw [hrun]
      exact ⟨rfl, rfl, rfl⟩
    · intro k hk
      rw [hrun]
      exact GoMap.get_set_other _ _ _ _ hk
    · rw [hrun]
      exact GoMap.get_set_same _ _ _
    · rw [hrun]
      simp only [getReverseProxy, GoMap.get_set_same]

/-- C9 witness: on the empty cache the URL `http://db` gets a new handle
bound to it, stored under its string form. -/
theorem getReverseProxy_get_or_create_witness :
    (getReverseProxy testNet GoMap.empty
        { Scheme := "http", Host := "db", Path := "", rest := "" }).1.target
      = { Scheme := "http", Host := "db", Path := "", rest := "" } ∧
    GoMap.get (getReverseProxy testNet GoMap.empty
        { Scheme := "http", Host := "db", Path := "", rest := "" }).2 "http://db"
      = some (getReverseProxy testNet GoMap.empty
        { Scheme := "http", Host := "db", Path := "", rest := "" }).1 :=
  ⟨((getReverseProxy_get_or_create testNet GoMap.empty
      { Scheme := "http", Host := "db", Path := "", rest := "" }).2.1 rfl).2.1,
    (getReverseProxy_get_or_create testNet GoMap.empty
      { Scheme := "http", Host := "db", Path := "", rest := "" }).2.2.2.1⟩

theorem updateForRedirection_fields (url : url.URL) (req : Request) :
    (updateForRedirection url req).Host = url.Host ∧
    (updateForRedirection url req).URL.Host = url.Host ∧
    (updateForRedirection url req).URL.Scheme = url.Scheme ∧
    (updateForRedirection url req).URL.Path = "/" ∧
    http.Header.Get (updateForRedirection url req).Header "X-Forwarded-Host"
      = http.Header.Get req.Header "Host" := by
  refine ⟨rfl, rfl, rfl, rfl, ?_⟩
  simp only [updateForRedirection]
  exact http.Header.Get_Set_same _ _ _

/-- C10 (the code at the failing input): the inbound request has the host
`gateway.local` in its `Host` field and, as for every request read by the
server, no `Host` entry in its header map; after `updateForRedirection`
towards `http://backend:8080` the host, scheme and path are rewritten as
claimed, but `X-Forwarded-Host` is the empty string, not the original
host. -/
theorem updateForRedirection_forwarded_host_empty :
    (requestWith "Bearer abc" none).Host = "gateway.local" ∧
    (updateForRedirection { Scheme := "http", Host := "backend:8080", Path := "", rest := "" }
      (requestWith "Bearer abc" none)).Host = "backend:8080" ∧
    (updateForRedirection { Scheme := "http", Host := "backend:8080", Path := "", rest := "" }
      (requestWith "Bearer abc" none)).URL.Host = "backend:8080" ∧
    (updateForRedirection { Scheme := "http", Host := "backend:8080", Path := "", rest := "" }
      (requestWith "Bearer abc" none)).URL.Scheme = "http" ∧
    (updateForRedirection { Scheme := "http", Host := "backend:8080", Path := "", rest := "" }
      (requestWith "Bearer abc" none)).URL.Path = "/" ∧
    http.Header.Get
      (updateForRedirection { Scheme := "http", Host := "backend:8080", Path := "", rest := "" }
        (requestWith "Bearer abc" none)).Header "X-Forwarded-Host" = "" ∧
    http.Header.Get
      (updateForRedirection { Scheme := "http", Host := "backend:8080", Path := "", rest := "" }
        (requestWith "Bearer abc" none)).Header "X-Forwarded-Host" ≠ "gateway.local" := by
  refine ⟨by decide, by decide, by decide, by decide, by decide, by decide, by decide⟩

end pom

/-! ## The wiring of `main`: every configured user has a stats record -/

namespace stats

theorem NewKeeper_foldl_present (names : List String) (username : String) (k : Keeper)
    (h : username ∈ names ∨ (GoMap.get k.UserStats username).isSome = true) :
    (GoMap.get (names.foldl
      (fun k name => { UserStats := GoMap.set k.UserStats name UserStats.zero }) k).UserStats
      username).isSome = true := by
  induction names generalizing k with
  | nil =>
    rcases h with h | h
    · cases h
    · exact h
  | cons n ns ih =>
    simp only [List.foldl_cons]
    apply ih
    by_cases hn : username = n
    · right
      rw [hn, GoMap.get_set_same]
      rfl
    · rcases h with h | h
      · left
        rcases List.mem_cons.mp h with h1 | h1
        · exact absurd h1 hn
        · exact h1
      · right
        rw [GoMap.get_set_other _ _ _ _ hn]
        exact h

theorem NewKeeper_present (names : List String) (username : String) (h : username ∈ names) :
    (GoMap.get (NewKeeper names).UserStats username).isSome = true :=
  NewKeeper_foldl_present names username _ (Or.inl h)

end stats

namespace config

theorem passHashes_foldl_mem (users : List User) (username : String) (m : GoMap String)
    (h : (GoMap.get (users.foldl (fun m user => GoMap.set m user.Username user.PassHash) m)
      username).isSome = true) :
    username ∈ users.map (fun user => user.Username) ∨ (GoMap.get m username).isSome = true := by
  induction users generalizing m with
  | nil => exact Or.inr h
  | cons u us ih =>
    simp only [List.foldl_cons] at h
    rcases ih _ h with h1 | h1
    · left
      simp only [List.map_cons, List.mem_cons]
      exact Or.inr h1
    · by_cases hn : username = u.Username
      · left
        simp [hn]
      · right
        rw [GoMap.get_set_other _ _ _ _ hn] at h1
        exact h1

theorem CheckUsername_mem (key : String) (users : List User) (routes : List Route)
    (username : String)
    (h : (ParseConfig key users routes).CheckUsername username = true) :
    username ∈ users.map (fun user => user.Username) := by
  have hsome : (GoMap.get (ParseConfig key users routes).passHashes username).isSome = true := by
    unfold PomConfig.CheckUsername at h
    split at h
    · cases h
    · next v hv => rw [hv]; rfl
  rcases passHashes_foldl_mem users username GoMap.empty hsome with h1 | h1
  · exact h1
  · cases h1

end config

namespace pom

theorem Increment_keeps_records (now : Int) (k k2 : stats.Keeper) (username other : String)
    (hstep : k.IncrementAuthorizedAttempt now username = some k2 ∨
      k.IncrementUnauthorizedAttempt now username = some k2)
    (h : (GoMap.get k.UserStats other).isSome = true) :
    (GoMap.get k2.UserStats other).isSome = true := by
  cases hrec : GoMap.get k.UserStats username with
  | none =>
    rcases hstep with hs | hs
    · rw [stats.IncrementAuthorizedAttempt_none _ _ _ hrec] at hs
      cases hs
    · rw [stats.IncrementUnauthorizedAttempt_none _ _ _ hrec] at hs
      cases hs
  | some record =>
    by_cases ho : other = username
    · rcases hstep with hs | hs
      · rw [stats.IncrementAuthorizedAttempt_some _ _ _ _ hrec] at hs
        cases hs
        rw [ho, GoMap.get_set_same]
        rfl
      · rw [stats.IncrementUnauthorizedAttempt_some _ _ _ _ hrec] at hs
        cases hs
        rw [ho, GoMap.get_set_same]
        rfl
    · rcases hstep with hs | hs
      · rw [stats.IncrementAuthorizedAttempt_some _ _ _ _ hrec] at hs
        cases hs
        rw [GoMap.get_set_other _ _ _ _ ho]
        exact h
      · rw [stats.IncrementUnauthorizedAttempt_some _ _ _ _ hrec] at hs
        cases hs
        rw [GoMap.get_set_other _ _ _ _ ho]
        exact h

theorem HandleSessionCreate_keeps_records (net : Net) (users : UserStore) (routes : RouteStore)
    (provider : AuthProvider) (now : Int) (res : http.ResponseWriter) (req : Request)
    (st : State stats.Keeper) (other : String)
    (h : (GoMap.get st.userStats.UserStats other).isSome = true) :
    (GoMap.get (HandleSessionCreate net (NewServer users routes (keeperStats now) provider)
      res req st).world.userStats.UserStats other).isSome = true := by
  unfold HandleSessionCreate
  simp only [NewServer, keeperStats]
  split
  · exact h
  · split
    · exact h
    · split
      · split
        · exact h
        · next s hs => exact Increment_keeps_records now _ s _ other (Or.inr hs) h
      · split
        · exact h
        · split
          · exact h
          · next s hs => exact Increment_keeps_records now _ s _ other (Or.inl hs) h

theorem usernamesOf_foldl (users : List config.User) (acc : List String) :
    users.foldl (fun usernames user => usernames ++ [user.Username]) acc
      = acc ++ users.map (fun user => user.Username) := by
  induction users generalizing acc with
  | nil => simp
  | cons u us ih => simp [ih]

theorem main_keeper_has_record (key : String) (users : List config.User)
    (routes : List config.Route) (username : String)
    (h : (config.ParseConfig key users routes).CheckUsername username = true) :
    (GoMap.get (stats.NewKeeper (usernamesOf (config.ParseConfig key users routes))).UserStats
      username).isSome = true := by
  apply stats.NewKeeper_present
  have hmem := config.CheckUsername_mem key users routes username h
  simpa [usernamesOf, config.ParseConfig, usernamesOf_foldl] using hmem

end pom

/-! ## Frame of the keeper methods -/

namespace stats

theorem NewKeeper_foldl_zero (names : List String) (k : Keeper)
    (hk : ∀ v r, GoMap.get k.UserStats v = some r → r = UserStats.zero) :
    ∀ v r, GoMap.get (names.foldl
      (fun k name => { UserStats := GoMap.set k.UserStats name UserStats.zero }) k).UserStats v
        = some r → r = UserStats.zero := by
  induction names generalizing k with
  | nil => exact hk
  | cons n ns ih =>
    simp only [List.foldl_cons]
    apply ih
    intro v r hv
    by_cases hn : v = n
    · rw [hn, GoMap.get_set_same] at hv
      cases hv
      rfl
    · rw [GoMap.get_set_other _ _ _ _ hn] at hv
      exact hk v r hv

theorem NewKeeper_get_zero (names : List String) (username : String) (h : username ∈ names) :
    GoMap.get (NewKeeper names).UserStats username = some UserStats.zero := by
  have hsome := NewKeeper_present names username h
  obtain ⟨r, hr⟩ := Option.isSome_iff_exists.mp hsome
  have hz : r = UserStats.zero :=
    NewKeeper_foldl_zero names { UserStats := GoMap.empty }
      (fun v r hv => by cases hv) username r hr
  rw [hr, hz]

theorem wrapInt64_one : wrapInt64 1 = 1 := by decide

end stats

namespace stats

theorem set_keeps_keys (m : GoMap UserStats) (username : String) (old new : UserStats)
    (hold : GoMap.get m username = some old) (v : String) :
    (GoMap.get (GoMap.set m username new) v).isSome = (GoMap.get m v).isSome := by
  by_cases hv : v = username
  · rw [hv, GoMap.get_set_same, hold]
    rfl
  · rw [GoMap.get_set_other _ _ _ _ hv]

theorem wrapInt64_range (x : Int) : -2 ^ 63 ≤ wrapInt64 x ∧ wrapInt64 x < 2 ^ 63 := by
  unfold wrapInt64
  have h1 : 0 ≤ (x + 2 ^ 63) % 2 ^ 64 := Int.emod_nonneg _ (by norm_num)
  have h2 : (x + 2 ^ 63) % 2 ^ 64 < 2 ^ 64 := Int.emod_lt_of_pos _ (by norm_num)
  have h3 : (2 : Int) ^ 64 = 2 ^ 63 + 2 ^ 63 := by norm_num
  constructor <;> linarith

theorem zero_InRange : UserStats.zero.InRange := by
  unfold UserStats.InRange UserStats.zero
  norm_num

theorem BuiltBy_InRange (names : List String) (k : Keeper) (hbuilt : BuiltBy names k) :
    ∀ v r, GoMap.get k.UserStats v = some r → r.InRange := by
  induction hbuilt with
  | new =>
    intro v r hr
    have hz := NewKeeper_foldl_zero names { UserStats := GoMap.empty }
      (fun v r hv => by cases hv) v r hr
    rw [hz]
    exact zero_InRange
  | authorized k k2 now u _ hstep ih =>
    intro v r hr
    cases hrec : GoMap.get k.UserStats u with
    | none =>
      rw [IncrementAuthorizedAttempt_none _ _ _ hrec] at hstep
      cases hstep
    | some old =>
      rw [IncrementAuthorizedAttempt_some _ _ _ _ hrec] at hstep
      cases hstep
      by_cases hv : v = u
      · rw [hv, GoMap.get_set_same] at hr
        cases hr
        exact ⟨wrapInt64_range _, (ih u old hrec).2⟩
      · rw [GoMap.get_set_other _ _ _ _ hv] at hr
        exact ih v r hr
  | unauthorized k k2 now u _ hstep ih =>
    intro v r hr
    cases hrec : GoMap.get k.UserStats u with
    | none =>
      rw [IncrementUnauthorizedAttempt_none _ _ _ hrec] at hstep
      cases hstep
    | some old =>
      rw [IncrementUnauthorizedAttempt_some _ _ _ _ hrec] at hstep
      cases hstep
      by_cases hv : v = u
      · rw [hv, GoMap.get_set_same] at hr
        cases hr
        exact ⟨(ih u old hrec).1, wrapInt64_range _⟩
      · rw [GoMap.get_set_other _ _ _ _ hv] at hr
        exact ih v r hr

theorem BuiltBy_present (names : List String) (k : Keeper) (hbuilt : BuiltBy names k)
    (u : String) (hu : u ∈ names) : (GoMap.get k.UserStats u).isSome = true := by
  induction hbuilt with
  | new => exact NewKeeper_present names u hu
  | authorized k k2 now v _ hstep ih =>
    cases hrec : GoMap.get k.UserStats v with
    | none =>
      rw [IncrementAuthorizedAttempt_none _ _ _ hrec] at hstep
      cases hstep
    | some old =>
      rw [IncrementAuthorizedAttempt_some _ _ _ _ hrec] at hstep
      cases hstep
      rw [set_keeps_keys _ _ _ _ hrec u]
      exact ih
  | unauthorized k k2 now v _ hstep ih =>
    cases hrec : GoMap.get k.UserStats v with
    | none =>
      rw [IncrementUnauthorizedAttempt_none _ _ _ hrec] at hstep
      cases hstep
    | some old =>
      rw [IncrementUnauthorizedAttempt_some _ _ _ _ hrec] at hstep
      cases hstep
      rw [set_keeps_keys _ _ _ _ hrec u]
      exact ih

/-- C11 (amended): for every keeper that was built by `NewKeeper(names)`
and then only changed by calls of the two increments, and every username
`u` of `names`: `u` has a record `r`; `IncrementAuthorizedAttempt(u)`
returns a keeper in which the record of `u` is `r` with `LastSuccessful`
set to the current time and `SuccessCounter` raised by one in `int64`
arithmetic, which is exactly `SuccessCounter + 1` unless the counter is the
largest `int64`; the `UnsuccessCounter` and `LastUnsuccessful` of `u`, the
record of every other user and the set of keys are unchanged;
`IncrementUnauthorizedAttempt(u)` does the same with `UnsuccessCounter` and
`LastUnsuccessful`; and `GetStats` leaves the keeper as it was. -/
theorem Keeper_methods_frame (names : List String) (k : Keeper) (u : String) (now : Int)
    (hbuilt : BuiltBy names k) (hu : u ∈ names) :
    ∃ r, GoMap.get k.UserStats u = some r ∧
      (∃ k2, k.IncrementAuthorizedAttempt now u = some k2 ∧
        GoMap.get k2.UserStats u =
          some { r with LastSuccessful := now,
                        SuccessCounter := wrapInt64 (r.SuccessCounter + 1) } ∧
        (r.SuccessCounter ≠ 2 ^ 63 - 1 →
          GoMap.get k2.UserStats u =
            some { r with LastSuccessful := now, SuccessCounter := r.SuccessCounter + 1 }) ∧
        (∀ v, v ≠ u → GoMap.get k2.UserStats v = GoMap.get k.UserStats v) ∧
        (∀ v, (GoMap.get k2.UserStats v).isSome = (GoMap.get k.UserStats v).isSome)) ∧
      (∃ k2, k.IncrementUnauthorizedAttempt now u = some k2 ∧
        GoMap.get k2.UserStats u =
          some { r with LastUnsuccessful := now,
                        UnsuccessCounter := wrapInt64 (r.UnsuccessCounter + 1) } ∧
        (r.UnsuccessCounter ≠ 2 ^ 63 - 1 →
          GoMap.get k2.UserStats u =
            some { r with LastUnsuccessful := now,
                          UnsuccessCounter := r.UnsuccessCounter + 1 }) ∧
        (∀ v, v ≠ u → GoMap.get k2.UserStats v = GoMap.get k.UserStats v) ∧
        (∀ v, (GoMap.get k2.UserStats v).isSome = (GoMap.get k.UserStats v).isSome)) ∧
      (∀ v, (k.GetStatsStep v).2 = k ∧ (k.GetStatsStep v).1 = k.GetStats v) := by
  obtain ⟨r, hrec⟩ := Option.isSome_iff_exists.mp (BuiltBy_present names k hbuilt u hu)
  have hrange := BuiltBy_InRange names k hbuilt u r hrec
  refine ⟨r, hrec, ?_, ?_, ?_⟩
  · refine ⟨_, IncrementAuthorizedAttempt_some now k u r hrec, ?_, ?_, ?_, ?_⟩
    · rw [GoMap.get_set_same]
    · intro hmax
      have hlt : r.SuccessCounter < 2 ^ 63 - 1 := by
        have := hrange.1.2
        omega
      rw [GoMap.get_set_same, wrapInt64_of_range _ (by linarith [hrange.1.1]) (by linarith)]
    · intro v hv
      exact GoMap.get_set_other _ _ _ _ hv
    · intro v
      exact set_keeps_keys _ _ _ _ hrec v
  · refine ⟨_, IncrementUnauthorizedAttempt_some now k u r hrec, ?_, ?_, ?_, ?_⟩
    · rw [GoMap.get_set_same]
    · intro hmax
      have hlt : r.UnsuccessCounter < 2 ^ 63 - 1 := by
        have := hrange.2.2
        omega
      rw [GoMap.get_set_same, wrapInt64_of_range _ (by linarith [hrange.2.1]) (by linarith)]
    · intro v hv
      exact GoMap.get_set_other _ _ _ _ hv
    · intro v
      exact set_keeps_keys _ _ _ _ hrec v
  · intro v
    exact ⟨rfl, rfl⟩

/-- C11 witness: the keeper is `NewKeeper(["bob", "eve"])` after one
unauthorized attempt of `bob` at second 50; an authorized attempt of `bob`
at second 100 then has the stated effect on his record. -/
theorem Keeper_methods_frame_witness :
    "bob" ∈ ["bob", "eve"] ∧
    ∃ k, (NewKeeper ["bob", "eve"]).IncrementUnauthorizedAttempt 50 "bob" = some k ∧
      BuiltBy ["bob", "eve"] k ∧
      ∃ r, GoMap.get k.UserStats "bob" = some r ∧
        ∃ k2, k.IncrementAuthorizedAttempt 100 "bob" = some k2 ∧
          GoMap.get k2.UserStats "bob" =
            some { r with LastSuccessful := 100,
                          SuccessCounter := wrapInt64 (r.SuccessCounter + 1) } :=
  ⟨by decide,
    _, IncrementUnauthorizedAttempt_some 50 (NewKeeper ["bob", "eve"]) "bob" UserStats.zero
      (by decide),
    BuiltBy.unauthorized _ _ 50 "bob" BuiltBy.new
      (IncrementUnauthorizedAttempt_some 50 (NewKeeper ["bob", "eve"]) "bob" UserStats.zero
        (by decide)),
    (Keeper_methods_frame ["bob", "eve"] _ "bob" 100
      (BuiltBy.unauthorized _ _ 50 "bob" BuiltBy.new
        (IncrementUnauthorizedAttempt_some 50 (NewKeeper ["bob", "eve"]) "bob" UserStats.zero
          (by decide)))
      (by decide)).imp
      (fun _ h => ⟨h.1, h.2.1.imp (fun _ h2 => ⟨h2.1, h2.2.1⟩)⟩)⟩

theorem repeatAuthorized_succ (n : Nat) (now : Int) (u : String) (k k1 : Keeper)
    (hrun : repeatAuthorized n now u k = some k1) :
    repeatAuthorized (n + 1) now u k = k1.IncrementAuthorizedAttempt now u := by
  show (match repeatAuthorized n now u k with
    | none => none
    | some k1 => k1.IncrementAuthorizedAttempt now u) = _
  rw [hrun]

theorem successCounterOf_some (k : Keeper) (u : String) (r : UserStats)
    (hrec : GoMap.get k.UserStats u = some r) :
    successCounterOf (some k) u = some r.SuccessCounter := by
  simp only [successCounterOf, hrec]

theorem repeatAuthorized_counter (names : List String) (u : String) (now : Int)
    (hu : u ∈ names) (n : Nat) (hn : (n : Int) ≤ 2 ^ 63 - 1) :
    ∃ k r, repeatAuthorized n now u (NewKeeper names) = some k ∧ BuiltBy names k ∧
      GoMap.get k.UserStats u = some r ∧ r.SuccessCounter = n := by
  induction n with
  | zero =>
    exact ⟨NewKeeper names, UserStats.zero, rfl, BuiltBy.new, NewKeeper_get_zero names u hu, rfl⟩
  | succ m ih =>
    have hm : (m : Int) ≤ 2 ^ 63 - 1 := by
      push_cast at hn
      linarith
    obtain ⟨k, r, hrun, hbuilt, hrec, hcount⟩ := ih hm
    have hstep := IncrementAuthorizedAttempt_some now k u r hrec
    refine ⟨_, _, ?_, BuiltBy.authorized k _ now u hbuilt hstep, GoMap.get_set_same _ _ _, ?_⟩
    · rw [repeatAuthorized_succ m now u _ k hrun]
      exact hstep
    · simp only [hcount]
      push_cast at hn ⊢
      exact wrapInt64_of_range _ (by linarith) (by linarith)

theorem wrapInt64_max : wrapInt64 (9223372036854775807 + 1) = -9223372036854775808 := by
  unfold wrapInt64
  norm_num

/-- C11 counterexample: on `NewKeeper(["bob"])`, after 9223372036854775807
authorized attempts of `bob` his `SuccessCounter` is the largest `int64`,
and the next `IncrementAuthorizedAttempt("bob")` leaves it at the smallest
`int64` instead of raising it by 1. -/
theorem IncrementAuthorizedAttempt_wraps_at_max :
    successCounterOf (repeatAuthorized 9223372036854775807 100 "bob" (NewKeeper ["bob"])) "bob"
      = some 9223372036854775807 ∧
    successCounterOf
      (repeatAuthorized (9223372036854775807 + 1) 100 "bob" (NewKeeper ["bob"])) "bob"
      = some (-9223372036854775808) := by
  obtain ⟨k, r, hrun, _, hrec, hcount⟩ :=
    repeatAuthorized_counter ["bob"] "bob" 100 (by decide) 9223372036854775807 (by norm_num)
  have hcount2 : r.SuccessCounter = 9223372036854775807 := by
    rw [hcount]
    norm_num
  constructor
  · rw [hrun, successCounterOf_some k "bob" r hrec, hcount2]
  · rw [repeatAuthorized_succ _ _ _ _ k hrun,
      IncrementAuthorizedAttempt_some 100 k "bob" r hrec,
      successCounterOf_some _ "bob" _ (GoMap.get_set_same _ _ _), hcount2]
    exact congrArg some wrapInt64_max

end stats

namespace stats

theorem IncrementAuthorizedAttempt_frame (now : Int) (k : Keeper) (u : String) (r : UserStats)
    (hrec : GoMap.get k.UserStats u = some r)
    (hlo : -2 ^ 63 ≤ r.SuccessCounter) (hhi : r.SuccessCounter < 2 ^ 63 - 1) :
    ∃ k2, k.IncrementAuthorizedAttempt now u = some k2 ∧
      GoMap.get k2.UserStats u =
        some { r with LastSuccessful := now, SuccessCounter := r.SuccessCounter + 1 } ∧
      (∀ v, v ≠ u → GoMap.get k2.UserStats v = GoMap.get k.UserStats v) ∧
      (∀ v, (GoMap.get k2.UserStats v).isSome = (GoMap.get k.UserStats v).isSome) := by
  refine ⟨_, IncrementAuthorizedAttempt_some now k u r hrec, ?_, ?_, ?_⟩
  · rw [GoMap.get_set_same, wrapInt64_of_range _ (by linarith) (by linarith)]
  · intro v hv
    exact GoMap.get_set_other _ _ _ _ hv
  · intro v
    exact set_keeps_keys _ _ _ _ hrec v

theorem IncrementUnauthorizedAttempt_frame (now : Int) (k : Keeper) (u : String) (r : UserStats)
    (hrec : GoMap.get k.UserStats u = some r)
    (hlo : -2 ^ 63 ≤ r.UnsuccessCounter) (hhi : r.UnsuccessCounter < 2 ^ 63 - 1) :
    ∃ k2, k.IncrementUnauthorizedAttempt now u = some k2 ∧
      GoMap.get k2.UserStats u =
        some { r with LastUnsuccessful := now, UnsuccessCounter := r.UnsuccessCounter + 1 } ∧
      (∀ v, v ≠ u → GoMap.get k2.UserStats v = GoMap.get k.UserStats v) ∧
      (∀ v, (GoMap.get k2.UserStats v).isSome = (GoMap.get k.UserStats v).isSome) := by
  refine ⟨_, IncrementUnauthorizedAttempt_some now k u r hrec, ?_, ?_, ?_⟩
  · rw [GoMap.get_set_same, wrapInt64_of_range _ (by linarith) (by linarith)]
  · intro v hv
    exact GoMap.get_set_other _ _ _ _ hv
  · intro v
    exact set_keeps_keys _ _ _ _ hrec v

end stats
